import Mathlib

/-!
# RPW_Detection HTTP server: upload validation, upload jobs, authentication

A shallow embedding of the Go package `httpserver` (directory `Http`) and the
properties proved about it.

Conventions of the embedding.

* A Go `string` is a Lean `String`, read as its list of Unicode code points.
  Every string the handlers see comes out of the JSON decoder or an HTTP
  header and is valid UTF-8; the bytes `.`, `/`, space and `,` that the code
  scans for are ASCII, so scanning bytes and scanning code points agree.
* `int64` and `int` are `Int`; no arithmetic of the modelled code can overflow.
* Library behaviour that is not part of the repository is a parameter of the
  definition that uses it: the Unicode lower-case table behind
  `strings.ToLower` (`uni`), the text of a binding error, the JWT parser, the
  object-storage SDK, the clock and the UUID source.
* `filepath` is the Unix one: the only path separator is `/`.
-/

namespace RPW

/-! ## Go standard-library string functions used by the package -/

/-- Go `unicode.ToLower` on one rune: the ASCII branch is explicit, any rune
from `0x80` on is looked up in the Unicode table `uni`. -/
def toLowerRune (uni : Char → Char) (r : Char) : Char :=
  if r.toNat < 128 then
    if 65 ≤ r.toNat ∧ r.toNat ≤ 90 then Char.ofNat (r.toNat + 32) else r
  else uni r

/-- Go `strings.ToLower`: every rune is mapped by `unicode.ToLower` (the
ASCII-only fast path of the library computes the same string). -/
def ToLower (uni : Char → Char) (s : String) : String :=
  String.mk (s.data.map (toLowerRune uni))

/-- The backwards scan of `filepath.Ext`: `rev` holds the bytes still to be
visited, last byte first, and `acc` the bytes already passed. -/
def extScan : List Char → List Char → List Char
  | [], _ => []
  | c :: rest, acc =>
    if c = '/' then []
    else if c = '.' then '.' :: acc
    else extScan rest (c :: acc)

/-- Go `filepath.Ext`: the suffix beginning at the final dot of the final
path element, or the empty string when that element has no dot. -/
def Ext (path : String) : String :=
  String.mk (extScan path.data.reverse [])

/-- Go `strings.HasSuffix`. -/
def HasSuffix (s suffix : String) : Bool :=
  decide (suffix.data <:+ s.data)

/-- Go `strings.HasPrefix`. -/
def HasPrefix (s pre : String) : Bool :=
  decide (pre.data <+: s.data)

/-- Go `strings.TrimSuffix`. -/
def TrimSuffix (s suffix : String) : String :=
  if HasSuffix s suffix then String.mk (s.data.take (s.data.length - suffix.data.length)) else s

/-- The pieces of a rune list between the occurrences of `sep`. -/
def splitRunes (sep : Char) : List Char → List (List Char)
  | [] => [[]]
  | c :: cs =>
    if c = sep then [] :: splitRunes sep cs
    else
      match splitRunes sep cs with
      | [] => [[c]]
      | piece :: pieces => (c :: piece) :: pieces

/-- Go `strings.Split` with a one-byte separator (the package only splits at
a space and at a comma). -/
def Split (s : String) (sep : Char) : List String :=
  (splitRunes sep s.data).map String.mk

/-! ## storage.go: validation helpers -/

/-- The list `allowedTypes` of `ValidateFileType`. -/
def allowedTypes : List String := ["wav", "mp3", "flac", "m4a", "aac"]

/-- The loop of `ValidateFileType` over the allowed types. -/
def validateFileTypeLoop (uni : Char → Char) (fileType : String) : List String → Bool
  | [] => false
  | allowed :: rest =>
    if ToLower uni fileType = allowed then true
    else validateFileTypeLoop uni fileType rest

/-- Go `ValidateFileType`. -/
def ValidateFileType (uni : Char → Char) (fileType : String) : Bool :=
  validateFileTypeLoop uni fileType allowedTypes

/-- Go `ValidateFileSize`: a non-positive limit is replaced by 100MB. -/
def ValidateFileSize (fileSize maxSize : Int) : Bool :=
  let maxSize := if maxSize ≤ 0 then 100 * 1024 * 1024 else maxSize
  decide (fileSize > 0) && decide (fileSize ≤ maxSize)

/-- Go `GetContentType`: a switch on the lower-cased extension. -/
def GetContentType (uni : Char → Char) (fileName : String) : String :=
  let ext := ToLower uni (Ext fileName)
  if ext = ".wav" then "audio/wav"
  else if ext = ".mp3" then "audio/mpeg"
  else if ext = ".flac" then "audio/flac"
  else if ext = ".m4a" then "audio/mp4"
  else if ext = ".aac" then "audio/aac"
  else "application/octet-stream"

/-- The Unicode lower-case table sends no rune beyond ASCII to a dot or a
slash (true of the real table, which maps letters to letters). -/
def KeepsSeparators (uni : Char → Char) : Prop :=
  ∀ c : Char, 128 ≤ c.toNat → uni c ≠ '.' ∧ uni c ≠ '/'

/-! ## The clock: Go `time.Time`, `Format` and the RFC 3339 parser -/

/-- A `time.Duration`, in nanoseconds. -/
abbrev Duration := Int

/-- Go `time.Hour`. -/
def Hour : Duration := 3600 * 1000000000

/-- A `time.Time`: seconds since the Unix epoch, nanoseconds inside the
second, and the zone offset in seconds east of UTC. -/
structure Time where
  unixSec : Int
  nsec : Nat
  offset : Int
deriving DecidableEq, Repr

/-- Go `Time.Add`. -/
def Time.Add (t : Time) (d : Duration) : Time :=
  let total := t.unixSec * 1000000000 + (t.nsec : Int) + d
  { t with unixSec := total / 1000000000, nsec := (total % 1000000000).toNat }

/-- Year, month and day of a day number counted from 1970-01-01 in the
proleptic Gregorian calendar. -/
def civilFromDays (z : Int) : Int × Int × Int :=
  let z := z + 719468
  let era := z / 146097
  let doe := z - era * 146097
  let yoe := (doe - doe / 1460 + doe / 36524 - doe / 146096) / 365
  let doy := doe - (365 * yoe + yoe / 4 - yoe / 100)
  let mp := (5 * doy + 2) / 153
  let d := doy - (153 * mp + 2) / 5 + 1
  let m := if mp < 10 then mp + 3 else mp - 9
  (yoe + era * 400 + (if m ≤ 2 then 1 else 0), m, d)

/-- Day number counted from 1970-01-01 of a calendar date. -/
def daysFromCivil (y m d : Int) : Int :=
  let y := if m ≤ 2 then y - 1 else y
  let era := y / 400
  let yoe := y - era * 400
  let doy := (153 * (if m > 2 then m - 3 else m + 9) + 2) / 5 + d - 1
  let doe := yoe * 365 + yoe / 4 - yoe / 100 + doy
  era * 146097 + doe - 719468

/-- Seconds since the epoch on the wall clock of the zone of `t`. -/
def Time.wall (t : Time) : Int := t.unixSec + t.offset

def Time.Year (t : Time) : Int := (civilFromDays (t.wall / 86400)).1
def Time.Month (t : Time) : Int := (civilFromDays (t.wall / 86400)).2.1
def Time.Day (t : Time) : Int := (civilFromDays (t.wall / 86400)).2.2
def Time.Hour (t : Time) : Int := t.wall % 86400 / 3600
def Time.Minute (t : Time) : Int := t.wall % 3600 / 60
def Time.Second (t : Time) : Int := t.wall % 60

/-- The decimal digit character of `d`. -/
def digitChar (d : Nat) : Char := Char.ofNat (48 + d % 10)

/-- Most significant digits of `n` pushed in front of `acc`; `fuel` bounds the
number of digits. -/
def decimalAux : Nat → Nat → List Char → List Char
  | 0, _, acc => acc
  | fuel + 1, n, acc =>
    if n < 10 then digitChar n :: acc
    else decimalAux fuel (n / 10) (digitChar n :: acc)

/-- The decimal digits of a natural number (at least one digit). -/
def decimal (n : Nat) : List Char := decimalAux (n + 1) n []

/-- Go `time.appendInt`: a sign, then the digits padded with zeros to `width`. -/
def appendInt (x : Int) (width : Nat) : List Char :=
  let ds := decimal x.natAbs
  (if x < 0 then ['-'] else []) ++ List.replicate (width - ds.length) '0' ++ ds

/-- The pieces of a `Format` layout that the package uses. -/
inductive LayoutItem
  | year      -- "2006"
  | month     -- "01"
  | day       -- "02"
  | hour      -- "15"
  | minute    -- "04"
  | second    -- "05"
  | zone      -- "Z07:00"
  | lit (c : Char)
deriving DecidableEq, Repr

/-- The text one layout piece produces for `t`. -/
def formatItem (t : Time) : LayoutItem → List Char
  | .year => appendInt t.Year 4
  | .month => appendInt t.Month 2
  | .day => appendInt t.Day 2
  | .hour => appendInt t.Hour 2
  | .minute => appendInt t.Minute 2
  | .second => appendInt t.Second 2
  | .zone =>
    if t.offset = 0 then ['Z']
    else
      let zone := Int.tdiv t.offset 60
      (if zone < 0 then ['-'] else ['+'])
        ++ appendInt ((zone.natAbs / 60 : Nat) : Int) 2 ++ [':']
        ++ appendInt ((zone.natAbs % 60 : Nat) : Int) 2
  | .lit c => [c]

/-- Go `Time.Format` on a layout given piece by piece. -/
def Time.Format (t : Time) (layout : List LayoutItem) : String :=
  String.mk (layout.flatMap (formatItem t))

/-- The layout `"2006-01-02 15:04:05"` of the response envelopes. -/
def layoutDateTime : List LayoutItem :=
  [.year, .lit '-', .month, .lit '-', .day, .lit ' ', .hour, .lit ':', .minute, .lit ':', .second]

/-- The layout `"2006/01/02/15"` of the storage keys. -/
def layoutHourPath : List LayoutItem :=
  [.year, .lit '/', .month, .lit '/', .day, .lit '/', .hour]

/-- The layout `time.RFC3339`, `"2006-01-02T15:04:05Z07:00"`. -/
def layoutRFC3339 : List LayoutItem :=
  [.year, .lit '-', .month, .lit '-', .day, .lit 'T', .hour, .lit ':', .minute, .lit ':', .second,
   .zone]

/-- The `parseUint` of the RFC 3339 parser: all bytes are digits and the value
lies in the range. -/
def parseUint (s : List Char) (lo hi : Nat) : Option Nat :=
  if s.all Char.isDigit then
    let x := s.foldl (fun acc c => acc * 10 + (c.toNat - 48)) 0
    if lo ≤ x ∧ x ≤ hi then some x else none
  else none

/-- Go `time.daysIn`. -/
def daysIn (month year : Nat) : Nat :=
  if month = 2 then
    if year % 4 = 0 ∧ (year % 100 ≠ 0 ∨ year % 400 = 0) then 29 else 28
  else if month = 4 ∨ month = 6 ∨ month = 9 ∨ month = 11 then 30
  else 31

/-- The zone suffix of an RFC 3339 time: `Z`, or a sign with hours and
minutes; the result is the offset in seconds. -/
def parseZone (s : List Char) : Option Int :=
  if s = ['Z'] then some 0
  else if s.length ≠ 6 then none
  else
    match parseUint ((s.drop 1).take 2) 0 23, parseUint ((s.drop 4).take 2) 0 59 with
    | some hr, some mm =>
      if (s.get? 0 = some '-' ∨ s.get? 0 = some '+') ∧ s.get? 3 = some ':' then
        let zoneOffset : Int := ((hr * 60 + mm) * 60 : Nat)
        some (if s.get? 0 = some '-' then -zoneOffset else zoneOffset)
      else none
    | _, _ => none

/-- The fractional second of an RFC 3339 time: a dot and digits, of which the
first nine count; the result is the nanoseconds and the rest of the input. -/
def parseFraction (s : List Char) : Nat × List Char :=
  match s with
  | '.' :: d :: rest =>
    if d.isDigit then
      let ds := d :: rest.takeWhile Char.isDigit
      let nine := (ds ++ List.replicate 9 '0').take 9
      (nine.foldl (fun acc c => acc * 10 + (c.toNat - 48)) 0, rest.dropWhile Char.isDigit)
    else (0, s)
  | _ => (0, s)

/-- Go `time.parseRFC3339`, the parser behind the JSON decoding of a
`time.Time`: date, `T`, time, optional fraction, zone. -/
def parseRFC3339 (str : String) : Option Time :=
  let s := str.data
  if s.length < 19 then none
  else
    match parseUint (s.take 4) 0 9999, parseUint ((s.drop 5).take 2) 1 12 with
    | some year, some month =>
      match parseUint ((s.drop 8).take 2) 1 (daysIn month year),
            parseUint ((s.drop 11).take 2) 0 23,
            parseUint ((s.drop 14).take 2) 0 59,
            parseUint ((s.drop 17).take 2) 0 59 with
      | some day, some hour, some min, some sec =>
        if s.get? 4 = some '-' ∧ s.get? 7 = some '-' ∧ s.get? 10 = some 'T'
            ∧ s.get? 13 = some ':' ∧ s.get? 16 = some ':' then
          let frac := parseFraction (s.drop 19)
          match parseZone frac.2 with
          | some off =>
            some { unixSec := daysFromCivil year month day * 86400 + hour * 3600 + min * 60 + sec - off
                   nsec := frac.1
                   offset := off }
          | none => none
        else none
      | _, _, _, _ => none
    | _, _ => none

/-! ## The UUID source -/

/-- A UUID: sixteen bytes. -/
structure UUID where
  bytes : List (Fin 256)
  size : bytes.length = 16
deriving DecidableEq

/-- A lower-case hexadecimal digit. -/
def hexDigit (n : Nat) : Char :=
  if n % 16 < 10 then Char.ofNat (48 + n % 16) else Char.ofNat (87 + n % 16)

/-- Two lower-case hexadecimal digits per byte. -/
def hexEncode (bs : List (Fin 256)) : List Char :=
  bs.flatMap (fun b => [hexDigit (b.val / 16), hexDigit b.val])

/-- Go `UUID.String`: the canonical form `xxxxxxxx-xxxx-xxxx-xxxx-xxxxxxxxxxxx`. -/
def UUID.String (u : UUID) : String :=
  String.mk (hexEncode (u.bytes.take 4) ++ '-' :: hexEncode ((u.bytes.drop 4).take 2)
    ++ '-' :: hexEncode ((u.bytes.drop 6).take 2) ++ '-' :: hexEncode ((u.bytes.drop 8).take 2)
    ++ '-' :: hexEncode (u.bytes.drop 10))

/-- The Go slice `s[:n]`. -/
def slicePrefix (s : String) (n : Nat) : String := String.mk (s.data.take n)

/-- The UUIDs `uuid.New` can draw: random ones, of version 4 (the high half of
byte 6 is 4) and of the RFC 4122 variant (the two high bits of byte 8 are 10);
the other 122 bits are free. -/
def UUID.isRandom (u : UUID) : Bool :=
  decide ((u.bytes.get? 6).map (fun b => b.val / 16) = some 4) &&
  decide ((u.bytes.get? 8).map (fun b => b.val / 64) = some 2)

/-! ## models.go -/

/-- Go `CreateUploadJobRequest`; every field but `Description` carries
`binding:"required"`. -/
structure CreateUploadJobRequest where
  DeviceID : String
  FileName : String
  FileSize : Int
  FileType : String
  ContentType : String
  Description : String
deriving DecidableEq, Repr

/-- Go `CreateUploadJobResponse`. -/
structure CreateUploadJobResponse where
  JobID : String
  UploadURL : String
  Bucket : String
  Key : String
  TTL : Int
  ExpiresAt : Time
  ContentType : String
  MaxFileSize : Int
  RequiredFields : List String
  Status : String
  CreatedAt : Time
deriving DecidableEq, Repr

/-- Go `JobStatusPending`. -/
def JobStatusPending : String := "pending"

/-- Go `ObjectStorageConfig`. -/
structure ObjectStorageConfig where
  Provider : String
  Endpoint : String
  AccessKey : String
  SecretKey : String
  Bucket : String
  Region : String
  UseSSL : Bool
  ExpireHours : Int
deriving DecidableEq, Repr

/-- Go `PresignedURLParams`; `Metadata` lists the entries of the map. -/
structure PresignedURLParams where
  Bucket : String
  Key : String
  Method : String
  Expires : Duration
  ContentType : String
  Metadata : List (String × String)
deriving DecidableEq, Repr

/-- Go `APIResponse` without its `Data`, which decodes from any JSON value. -/
structure APIResponse where
  Code : Int
  Message : String
  Time : Time
deriving DecidableEq, Repr

/-- The zero `time.Time`, January 1 of year 1, 00:00 UTC. -/
def zeroTime : Time := ⟨-62135596800, 0, 0⟩

/-- Go `time.Minute`. -/
def Minute : Duration := 60 * 1000000000

/-- Go `UploadJob`; `Status` holds an `UploadJobStatus`, a string. A field
left out of a literal has its zero value. -/
structure UploadJob where
  ID : String
  DeviceID : String
  FileName : String
  FileSize : Int
  FileType : String
  ContentType : String
  Description : String := ""
  Bucket : String := ""
  Key : String := ""
  Status : String
  UploadURL : String := ""
  TTL : Int := 0
  ExpiresAt : Time := zeroTime
  CreatedAt : Time
  UpdatedAt : Time
deriving DecidableEq, Repr

/-- Go `JobStatusCompleted`. -/
def JobStatusCompleted : String := "completed"

/-- Go `UploadCompletionNotification`; no field carries a `binding` tag. -/
structure UploadCompletionNotification where
  JobID : String
  Bucket : String
  Key : String
  ETag : String
  Size : Int
  CompletedAt : Time
deriving DecidableEq, Repr

/-- Go `PaginatedResponse`, with the job list `ListUploadJobs` stores in
`Data`. -/
structure PaginatedResponse where
  Total : Int
  Page : Int
  PageSize : Int
  TotalPages : Int
  Data : List UploadJob
deriving DecidableEq, Repr

/-! ## storage.go: the storage service and the generators -/

/-- Go `DefaultObjectStorageConfig`. -/
def DefaultObjectStorageConfig : ObjectStorageConfig :=
  { Provider := "minio"
    Endpoint := "localhost:9000"
    AccessKey := "minioadmin"
    SecretKey := "minioadmin"
    Bucket := "pest-detection"
    Region := "us-east-1"
    UseSSL := false
    ExpireHours := 24 }

/-- Go `LoadObjectStorageConfig`: the defaults, nothing is read yet. -/
def LoadObjectStorageConfig : ObjectStorageConfig := DefaultObjectStorageConfig

/-- Go `MinIOStorageService`. The S3 client is represented by `presign`, the
SDK calls `PutObjectRequest` and `Presign` on the bucket, key, content type,
metadata and lifetime they are given. -/
structure MinIOStorageService where
  config : ObjectStorageConfig
  presign : String → String → String → List (String × String) → Duration → Except String String

/-- Go `(*MinIOStorageService).GeneratePresignedUploadURL`. `none` is the
nil receiver: reading `s.config` or `s.s3Client` through it panics, and one of
the two is always read. -/
def MinIOStorageService.GeneratePresignedUploadURL (s : Option MinIOStorageService)
    (params : PresignedURLParams) : Option (Except String String) :=
  match s with
  | none => none
  | some s =>
    let expires := if params.Expires = 0 then s.config.ExpireHours * Hour else params.Expires
    match s.presign params.Bucket params.Key params.ContentType params.Metadata expires with
    | .error err => some (.error ("生成预签名URL失败: " ++ err))
    | .ok url => some (.ok url)

/-- The value of the package variable `storageService`, of interface type
`StorageService`. -/
inductive StorageRef
  /-- The nil interface: `InitStorageService` has never run. -/
  | nilInterface
  /-- A `*MinIOStorageService`; `none` is the nil pointer that
  `InitStorageService` stores when `NewMinIOStorageService` fails. -/
  | minio (s : Option MinIOStorageService)
  /-- Any other implementation of the interface. -/
  | other (generate : PresignedURLParams → Except String String)

/-- The call `storageService.GeneratePresignedUploadURL(params)`; `none` is a
nil-dereference panic. -/
def StorageRef.GeneratePresignedUploadURL (s : StorageRef) (params : PresignedURLParams) :
    Option (Except String String) :=
  match s with
  | .nilInterface => none
  | .minio m => MinIOStorageService.GeneratePresignedUploadURL m params
  | .other generate => some (generate params)

/-- Go `GenerateJobID`, on the UUID that `uuid.New` draws. -/
def GenerateJobID (u : UUID) : String :=
  "job_" ++ slicePrefix u.String 8

/-- Go `GenerateStorageKey`, on the clock reading and the UUID it draws. -/
def GenerateStorageKey (now : Time) (u : UUID) (deviceID fileName : String) : String :=
  let timestamp := now.Format layoutHourPath
  let ext := Ext fileName
  let baseName := TrimSuffix fileName ext
  let uniqueName := baseName ++ "_" ++ slicePrefix u.String 8 ++ ext
  deviceID ++ "/" ++ timestamp ++ "/" ++ uniqueName

/-! ## gin: JSON binding and responses -/

/-- What `encoding/json` makes of a request body for a target struct `α`:
an error, or the struct with the fields it found (a field that is absent or
null keeps its zero value). -/
inductive JSONBody (α : Type)
  | malformed (err : String)
  | decoded (v : α)

/-- The error of `ShouldBindJSON`: the decoder failed, or the listed fields
failed their `binding` tag (for `required`: they hold the zero value). -/
inductive BindError
  | decode (err : String)
  | required (fields : List String)
deriving DecidableEq, Repr

/-- The names of the `required` fields that hold their zero value. -/
def missingFields (checks : List (String × Bool)) : List String :=
  (checks.filter (fun c => c.2)).map (fun c => c.1)

/-- Gin `ShouldBindJSON`: decode, then validate the `binding` tags. -/
def ShouldBindJSON {α : Type} (required : α → List (String × Bool)) (body : JSONBody α) :
    Except BindError α :=
  match body with
  | .malformed err => .error (.decode err)
  | .decoded v =>
    match missingFields (required v) with
    | [] => .ok v
    | f :: fs => .error (.required (f :: fs))

/-- A JSON value as it appears in a `gin.H` literal. -/
inductive JSONValue
  | str (s : String)
  | int (n : Int)
  | bool (b : Bool)
  | obj (fields : List (String × JSONValue))
  /-- A decimal literal: `digits` divided by ten to the `scale`. -/
  | dec (digits : Int) (scale : Nat)
  | arr (items : List JSONValue)

/-- A `gin.H`, the entries of the map. -/
abbrev H := List (String × JSONValue)

/-- The entry of a `gin.H` under a key. -/
def H.get (h : H) (key : String) : Option JSONValue := h.lookup key

/-- The entry under a key of a nested `gin.H`. -/
def JSONValue.field (v : JSONValue) (key : String) : Option JSONValue :=
  match v with
  | .obj fields => fields.lookup key
  | _ => none

/-- The values the handlers put into `Response.Data`. -/
inductive Payload
  | createUploadJob (r : CreateUploadJobResponse)
  | h (fields : H)
  | uploadJob (j : UploadJob)
  | paginated (p : PaginatedResponse)

/-- Go `Response` of handlers.go, the envelope every handler writes. `Data`
is `none` for the nil interface, which `omitempty` leaves out. -/
structure Response where
  Code : Int
  Message : String
  Data : Option Payload
  Time : String

/-- What a handler does to the gin context: `c.JSON(status, body)`, or a
panic that leaves the handler. -/
inductive Outcome
  | json (status : Int) (body : Response)
  | panic

/-- The HTTP status written, if any. -/
def Outcome.status : Outcome → Option Int
  | .json status _ => some status
  | .panic => none

/-- The envelope written, if any. -/
def Outcome.body : Outcome → Option Response
  | .json _ body => some body
  | .panic => none

/-- The library behaviour and the process state a handler runs in. -/
structure Env where
  /-- The Unicode lower-case table. -/
  uni : Char → Char
  /-- The readings of `time.Now()`, in the order the handler takes them. -/
  clock : Nat → Time
  /-- The values of `uuid.New()`, in the order the handler draws them. -/
  uuids : Nat → UUID
  /-- The text `err.Error()` of a binding error. -/
  errorText : BindError → String
  /-- The package variable `storageService`. -/
  storageService : StorageRef

/-- Go `successResponse`, answered at time `now`. -/
def successResponse (now : Time) (data : Payload) : Outcome :=
  .json 200
    { Code := 200
      Message := "操作成功"
      Data := some data
      Time := now.Format layoutDateTime }

/-- Go `errorResponse`, answered at time `now`. -/
def errorResponse (now : Time) (code : Int) (message : String) : Outcome :=
  .json code
    { Code := code
      Message := message
      Data := none
      Time := now.Format layoutDateTime }

/-- The decoding `json.Unmarshal(body, &response)` of an envelope into an
`APIResponse`, as the tests do it: `code`, `message` and `data` decode as
they are; `time` goes through the RFC 3339 parser of `time.Time`. -/
def decodeAPIResponse (body : Response) : Except String APIResponse :=
  match parseRFC3339 body.Time with
  | some t => .ok { Code := body.Code, Message := body.Message, Time := t }
  | none => .error ("parsing time " ++ body.Time)

/-! ## upload_handlers.go -/

/-- The `binding:"required"` tags of `CreateUploadJobRequest`. -/
def CreateUploadJobRequest.required (r : CreateUploadJobRequest) : List (String × Bool) :=
  [("DeviceID", decide (r.DeviceID = "")), ("FileName", decide (r.FileName = "")),
   ("FileSize", decide (r.FileSize = 0)), ("FileType", decide (r.FileType = "")),
   ("ContentType", decide (r.ContentType = ""))]

/-- The job ID `CreateUploadJob` generates: the first UUID drawn. -/
def createJobID (env : Env) : String := GenerateJobID (env.uuids 0)

/-- The storage key `CreateUploadJob` generates: the first clock reading and
the second UUID drawn. -/
def createStorageKey (env : Env) (req : CreateUploadJobRequest) : String :=
  GenerateStorageKey (env.clock 0) (env.uuids 1) req.DeviceID req.FileName

/-- The metadata map `CreateUploadJob` builds. -/
def createMetadata (env : Env) (req : CreateUploadJobRequest) : List (String × String) :=
  [("device_id", req.DeviceID), ("job_id", createJobID env), ("file_type", req.FileType),
   ("description", req.Description), ("upload_time", (env.clock 1).Format layoutRFC3339)]

/-- The `PresignedURLParams` literal `CreateUploadJob` passes to the storage
service. -/
def createPresignParams (env : Env) (req : CreateUploadJobRequest) : PresignedURLParams :=
  { Bucket := "pest-detection"
    Key := createStorageKey env req
    Method := "PUT"
    Expires := 24 * Hour
    ContentType := req.ContentType
    Metadata := createMetadata env req }

/-- A run of `CreateUploadJob`: what it did to the context and the calls of
`storageService.GeneratePresignedUploadURL` it reached. -/
structure CreateRun where
  outcome : Outcome
  storageCalls : List PresignedURLParams

/-- Go `CreateUploadJob`. -/
def CreateUploadJob (env : Env) (body : JSONBody CreateUploadJobRequest) : CreateRun :=
  match ShouldBindJSON CreateUploadJobRequest.required body with
  | .error err =>
    ⟨errorResponse (env.clock 0) 400 ("请求参数错误: " ++ env.errorText err), []⟩
  | .ok req =>
    if !ValidateFileType env.uni req.FileType then
      ⟨errorResponse (env.clock 0) 400 ("不支持的文件类型: " ++ req.FileType), []⟩
    else if !ValidateFileSize req.FileSize (100 * 1024 * 1024) then
      ⟨errorResponse (env.clock 0) 400 "文件大小超出限制", []⟩
    else
      let params := createPresignParams env req
      match env.storageService.GeneratePresignedUploadURL params with
      | none => ⟨.panic, [params]⟩
      | some (.error err) =>
        ⟨errorResponse (env.clock 2) 500 ("生成预签名URL失败: " ++ err), [params]⟩
      | some (.ok uploadURL) =>
        let response : CreateUploadJobResponse :=
          { JobID := createJobID env
            UploadURL := uploadURL
            Bucket := "pest-detection"
            Key := createStorageKey env req
            TTL := 24 * 3600
            ExpiresAt := (env.clock 2).Add (24 * Hour)
            ContentType := req.ContentType
            MaxFileSize := req.FileSize
            RequiredFields := ["file"]
            Status := JobStatusPending
            CreatedAt := env.clock 3 }
        ⟨successResponse (env.clock 4) (.createUploadJob response), [params]⟩

/-! ## handlers.go: login -/

/-- Go `LoginRequest`; both fields carry `binding:"required"`. -/
structure LoginRequest where
  Username : String
  Password : String
deriving DecidableEq, Repr

/-- The `binding:"required"` tags of `LoginRequest`. -/
def LoginRequest.required (r : LoginRequest) : List (String × Bool) :=
  [("Username", decide (r.Username = "")), ("Password", decide (r.Password = ""))]

/-- Go `handleLogin`. -/
def handleLogin (env : Env) (body : JSONBody LoginRequest) : Outcome :=
  match ShouldBindJSON LoginRequest.required body with
  | .error err => errorResponse (env.clock 0) 400 ("请求参数错误: " ++ env.errorText err)
  | .ok req =>
    let token := "eyJhbGciOiJIUzI1NiIsInR5cCI6IkpXVCJ9..."
    successResponse (env.clock 1) (.h
      [("token", .str token),
       ("user", .obj
          [("username", .str req.Username),
           ("login_time", .str ((env.clock 0).Format layoutDateTime))])])

/-! ## middleware.go: JWT authentication -/

/-- Go `JWTConfig`. -/
structure JWTConfig where
  SecretKey : String
  ExpireTime : Duration
deriving DecidableEq, Repr

/-- Go `JWTClaims`; the registered claims are the three dates the package
sets, in Unix seconds. -/
structure JWTClaims where
  UserID : String
  Username : String
  ExpiresAt : Option Int
  IssuedAt : Option Int
  NotBefore : Option Int
deriving DecidableEq, Repr

/-- A parsed `jwt.Token`: its claims and its `Valid` flag. -/
structure Token where
  Claims : JWTClaims
  Valid : Bool
deriving DecidableEq, Repr

/-- Go `NewJWTConfig`. -/
def NewJWTConfig : JWTConfig :=
  { SecretKey := "your-secret-key-here", ExpireTime := 24 * Hour }

/-- Go `ValidateJWT`; `parse` is `jwt.ParseWithClaims` on the token string and
the key that the key function returns. -/
def ValidateJWT (parse : String → String → Except String Token) (tokenString : String)
    (config : JWTConfig) : Except String JWTClaims :=
  match parse tokenString config.SecretKey with
  | .error err => .error err
  | .ok token =>
    if token.Valid then .ok token.Claims
    else .error "signature is invalid"

/-- A value stored in the gin context with `c.Set`. -/
inductive CtxValue
  | str (s : String)
  | claims (c : JWTClaims)
deriving DecidableEq, Repr

/-- What a middleware does to the gin context. -/
structure MiddlewareRun where
  /-- The status and body of `c.JSON`, if it was called. -/
  written : Option (Int × H)
  /-- `c.Abort()` was called. -/
  aborted : Bool
  /-- `c.Next()` was called: the request reaches the next handler. -/
  next : Bool
  /-- The entries stored with `c.Set`. -/
  keys : List (String × CtxValue)

/-- The 401 answer of `JWTAuthMiddleware`: `c.JSON` with a `gin.H`, then
`c.Abort()`. -/
def unauthorized (now : Time) (message : String) : MiddlewareRun :=
  { written := some (401,
      [("code", .int 401), ("message", .str message),
       ("time", .str (now.Format layoutDateTime))])
    aborted := true
    next := false
    keys := [] }

/-- Gin `c.GetHeader`: the empty string when the header is absent. -/
def GetHeader (header : Option String) : String := header.getD ""

/-- Go `JWTAuthMiddleware(config)`, run on a request with the given
`Authorization` header at time `now`. -/
def JWTAuthMiddleware (parse : String → String → Except String Token) (now : Time)
    (config : JWTConfig) (authorization : Option String) : MiddlewareRun :=
  let authHeader := GetHeader authorization
  if authHeader = "" then unauthorized now "缺少认证token"
  else
    match Split authHeader ' ' with
    | [bearer, tokenString] =>
      if bearer ≠ "Bearer" then unauthorized now "Token格式错误"
      else
        match ValidateJWT parse tokenString config with
        | .error _ => unauthorized now "Token无效或已过期"
        | .ok claims =>
          { written := none
            aborted := false
            next := true
            keys := [("user_id", .str claims.UserID), ("username", .str claims.Username),
                     ("jwt_claims", .claims claims)] }
    | _ => unauthorized now "Token格式错误"

/-! ## upload_handlers.go: the other job handlers -/

/-- Go `GetUploadJobStatus`; `id` is `c.Param("id")`. -/
def GetUploadJobStatus (env : Env) (id : String) : Outcome :=
  let jobID := id
  if jobID = "" then errorResponse (env.clock 0) 400 "任务ID不能为空"
  else
    let job : UploadJob :=
      { ID := jobID
        DeviceID := "dev_001"
        FileName := "audio_sample.wav"
        FileSize := 1024000
        FileType := "wav"
        ContentType := "audio/wav"
        Status := JobStatusPending
        CreatedAt := env.clock 0
        UpdatedAt := env.clock 1 }
    successResponse (env.clock 2) (.uploadJob job)

/-- Go `ListUploadJobs`; the query parameters are read and dropped. -/
def ListUploadJobs (env : Env) : Outcome :=
  let jobs : List UploadJob :=
    [{ ID := "job_abc123"
       DeviceID := "dev_001"
       FileName := "audio_sample.wav"
       FileSize := 1024000
       FileType := "wav"
       ContentType := "audio/wav"
       Status := JobStatusCompleted
       CreatedAt := (env.clock 0).Add (-1 * Hour)
       UpdatedAt := (env.clock 1).Add (-30 * Minute) },
     { ID := "job_def456"
       DeviceID := "dev_002"
       FileName := "audio_sample.mp3"
       FileSize := 2048000
       FileType := "mp3"
       ContentType := "audio/mpeg"
       Status := JobStatusPending
       CreatedAt := (env.clock 2).Add (-2 * Hour)
       UpdatedAt := (env.clock 3).Add (-2 * Hour) }]
  let response : PaginatedResponse :=
    { Total := jobs.length
      Page := 1
      PageSize := 20
      TotalPages := 1
      Data := jobs }
  successResponse (env.clock 4) (.paginated response)

/-- Go `DeleteUploadJob`; `id` is `c.Param("id")`. -/
def DeleteUploadJob (env : Env) (id : String) : Outcome :=
  let jobID := id
  if jobID = "" then errorResponse (env.clock 0) 400 "任务ID不能为空"
  else
    successResponse (env.clock 0) (.h
      [("message", .str "任务删除成功"),
       ("job_id", .str jobID)])

/-- The `binding` tags of `UploadCompletionNotification`: none. -/
def UploadCompletionNotification.required (_ : UploadCompletionNotification) :
    List (String × Bool) := []

/-- Go `UploadCompletionWebhook`; `id` is `c.Param("id")`. -/
def UploadCompletionWebhook (env : Env) (id : String)
    (body : JSONBody UploadCompletionNotification) : Outcome :=
  let jobID := id
  if jobID = "" then errorResponse (env.clock 0) 400 "任务ID不能为空"
  else
    match ShouldBindJSON UploadCompletionNotification.required body with
    | .error err => errorResponse (env.clock 0) 400 ("回调参数错误: " ++ env.errorText err)
    | .ok _ =>
      successResponse (env.clock 0) (.h
        [("message", .str "上传完成回调处理成功"),
         ("job_id", .str jobID),
         ("status", .str "completed")])

/-! ## handlers.go: the other handlers -/

/-- Go `RegisterRequest`; `Email` carries `binding:"required,email"`. -/
structure RegisterRequest where
  Username : String
  Password : String
  Email : String
deriving DecidableEq, Repr

/-- The `binding` tags of `RegisterRequest`; `isEmail` is the `email` rule of
the validator library. -/
def RegisterRequest.required (isEmail : String → Bool) (r : RegisterRequest) :
    List (String × Bool) :=
  [("Username", decide (r.Username = "")), ("Password", decide (r.Password = "")),
   ("Email", decide (r.Email = "") || !isEmail r.Email)]

/-- Go `AudioUploadRequest`. -/
structure AudioUploadRequest where
  DeviceID : String
  AudioType : String
  Timestamp : Int
deriving DecidableEq, Repr

/-- The `binding:"required"` tags of `AudioUploadRequest`. -/
def AudioUploadRequest.required (r : AudioUploadRequest) : List (String × Bool) :=
  [("DeviceID", decide (r.DeviceID = "")), ("AudioType", decide (r.AudioType = ""))]

/-- Go `DeviceRegisterRequest`. -/
structure DeviceRegisterRequest where
  DeviceID : String
  DeviceName : String
  Location : String
deriving DecidableEq, Repr

/-- The `binding:"required"` tags of `DeviceRegisterRequest`. -/
def DeviceRegisterRequest.required (r : DeviceRegisterRequest) : List (String × Bool) :=
  [("DeviceID", decide (r.DeviceID = "")), ("DeviceName", decide (r.DeviceName = ""))]

/-- Go `Time.UnixNano`. -/
def Time.UnixNano (t : Time) : Int := t.unixSec * 1000000000 + t.nsec

/-- Go `strconv.FormatInt(x, 10)`. -/
def FormatInt (x : Int) : String :=
  String.mk ((if x < 0 then ['-'] else []) ++ decimal x.natAbs)

/-- Go `handleRegister`. -/
def handleRegister (isEmail : String → Bool) (env : Env) (body : JSONBody RegisterRequest) :
    Outcome :=
  match ShouldBindJSON (RegisterRequest.required isEmail) body with
  | .error err => errorResponse (env.clock 0) 400 ("请求参数错误: " ++ env.errorText err)
  | .ok req =>
    successResponse (env.clock 1) (.h
      [("message", .str "用户注册成功"),
       ("user", .obj
          [("username", .str req.Username),
           ("email", .str req.Email),
           ("register_time", .str ((env.clock 0).Format layoutDateTime))])])

/-- Go `handleTokenVerify`; `authorization` is the `Authorization` header. -/
def handleTokenVerify (env : Env) (authorization : Option String) : Outcome :=
  let token := GetHeader authorization
  if token = "" then errorResponse (env.clock 0) 401 "缺少认证token"
  else
    successResponse (env.clock 0) (.h
      [("message", .str "Token验证成功"),
       ("valid", .bool true)])

/-- Go `handleAudioUpload`; `formFile` is the error of `c.FormFile("audio_file")`,
if any. -/
def handleAudioUpload (env : Env) (body : JSONBody AudioUploadRequest)
    (formFile : Except String Unit) : Outcome :=
  match ShouldBindJSON AudioUploadRequest.required body with
  | .error err => errorResponse (env.clock 0) 400 ("请求参数错误: " ++ env.errorText err)
  | .ok req =>
    match formFile with
    | .error err => errorResponse (env.clock 0) 400 ("音频文件上传失败: " ++ err)
    | .ok _ =>
      let taskID := "task_" ++ FormatInt (env.clock 0).UnixNano
      successResponse (env.clock 2) (.h
        [("message", .str "音频上传成功"),
         ("task_id", .str taskID),
         ("device_id", .str req.DeviceID),
         ("upload_time", .str ((env.clock 1).Format layoutDateTime))])

/-- Go `handleGetResult`; `id` is `c.Param("id")`. -/
def handleGetResult (env : Env) (id : String) : Outcome :=
  let taskID := id
  if taskID = "" then errorResponse (env.clock 0) 400 "任务ID不能为空"
  else
    successResponse (env.clock 1) (.h
      [("task_id", .str taskID),
       ("status", .str "completed"),
       ("result", .str "检测到虫害"),
       ("confidence", .dec 85 2),
       ("detection_time", .str ((env.clock 0).Format layoutDateTime)),
       ("details", .obj
          [("pest_type", .str "天牛"),
           ("severity", .str "中等"),
           ("recommendation", .str "建议及时处理")])])

/-- Go `handleGetStatus`; `id` is `c.Param("id")`. -/
def handleGetStatus (env : Env) (id : String) : Outcome :=
  let taskID := id
  if taskID = "" then errorResponse (env.clock 0) 400 "任务ID不能为空"
  else
    successResponse (env.clock 1) (.h
      [("task_id", .str taskID),
       ("status", .str "processing"),
       ("progress", .int 75),
       ("estimated_time", .str "2分钟"),
       ("update_time", .str ((env.clock 0).Format layoutDateTime))])

/-- Go `handleDeviceList`. -/
def handleDeviceList (env : Env) : Outcome :=
  let devices : List JSONValue :=
    [.obj
       [("device_id", .str "dev_001"),
        ("device_name", .str "检测设备A"),
        ("location", .str "果园A区"),
        ("status", .str "online"),
        ("last_active", .str (((env.clock 0).Add (-5 * Minute)).Format layoutDateTime))],
     .obj
       [("device_id", .str "dev_002"),
        ("device_name", .str "检测设备B"),
        ("location", .str "果园B区"),
        ("status", .str "offline"),
        ("last_active", .str (((env.clock 1).Add (-2 * Hour)).Format layoutDateTime))]]
  successResponse (env.clock 2) (.h
    [("total", .int devices.length),
     ("devices", .arr devices)])

/-- Go `handleDeviceInfo`; `id` is `c.Param("id")`. -/
def handleDeviceInfo (env : Env) (id : String) : Outcome :=
  let deviceID := id
  if deviceID = "" then errorResponse (env.clock 0) 400 "设备ID不能为空"
  else
    successResponse (env.clock 1) (.h
      [("device_id", .str deviceID),
       ("device_name", .str "检测设备A"),
       ("location", .str "果园A区"),
       ("status", .str "online"),
       ("firmware_version", .str "v1.2.3"),
       ("last_maintenance", .str "2024-01-15"),
       ("total_detections", .int 156),
       ("last_active", .str (((env.clock 0).Add (-5 * Minute)).Format layoutDateTime))])

/-- Go `handleDeviceRegister`. -/
def handleDeviceRegister (env : Env) (body : JSONBody DeviceRegisterRequest) : Outcome :=
  match ShouldBindJSON DeviceRegisterRequest.required body with
  | .error err => errorResponse (env.clock 0) 400 ("请求参数错误: " ++ env.errorText err)
  | .ok req =>
    successResponse (env.clock 1) (.h
      [("message", .str "设备注册成功"),
       ("device", .obj
          [("device_id", .str req.DeviceID),
           ("device_name", .str req.DeviceName),
           ("location", .str req.Location),
           ("register_time", .str ((env.clock 0).Format layoutDateTime)),
           ("status", .str "registered")])])

/-! ## middleware.go: panic recovery -/

/-- The value a handler panicked with, by its dynamic type: a `string`, an
`error` (runtime errors such as a nil dereference included), or a value of any
other type. -/
inductive PanicValue
  | str (s : String)
  | error (text : String)
  | other (description : String)
deriving DecidableEq, Repr

/-- The function `ErrorHandlerMiddleware` hands to `gin.CustomRecovery`: what
it does with a recovered panic value at time `now`. -/
def recoverPanic (now : Time) (recovered : PanicValue) : MiddlewareRun :=
  let message :=
    match recovered with
    | .str err => "服务器内部错误: " ++ err
    | _ => "服务器内部错误"
  { written := some (500,
      [("code", .int 500), ("message", .str message),
       ("time", .str (now.Format layoutDateTime))])
    aborted := true
    next := true
    keys := [] }

/-- Go `ErrorHandlerMiddleware()`: `gin.CustomRecovery` calls the next
handlers and, when they panic with a value, recovers it and runs the function
above; `panicked` is that value, `none` when nothing panics. -/
def ErrorHandlerMiddleware (now : Time) (panicked : Option PanicValue) : MiddlewareRun :=
  match panicked with
  | none => { written := none, aborted := false, next := true, keys := [] }
  | some recovered => recoverPanic now recovered

/-! ## config.go -/

/-- Go `getStringSliceEnv`; `getenv` is `os.Getenv`, which gives the empty
string for a variable that is not set. -/
def getStringSliceEnv (getenv : String → String) (key : String) (defaultValue : List String) :
    List String :=
  let value := getenv key
  if value ≠ "" then [value]
  else defaultValue

/-- The `Kafka.Brokers` entry of `LoadConfig`. -/
def loadKafkaBrokers (getenv : String → String) : List String :=
  getStringSliceEnv getenv "KAFKA_BROKERS" ["localhost:9092"]

/-- Go `strings.Contains`. -/
def Contains (s substr : String) : Bool :=
  decide (substr.data <:+: s.data)

/-- Go `strings.TrimPrefix`. -/
def TrimPrefix (s pre : String) : String :=
  if HasPrefix s pre then String.mk (s.data.drop pre.data.length) else s

/-- Go `time.Second`. -/
def Second : Duration := 1000000000

/-- Go `KafkaConfig`. -/
structure KafkaConfig where
  Brokers : List String
  Topic : String
  GroupID : String
deriving DecidableEq, Repr

/-- The loop of `GetBrokersString`: `i` is the index of the next broker and
`result` the string built so far. -/
def brokersLoop : Nat → List String → String → String
  | _, [], result => result
  | i, broker :: rest, result =>
    brokersLoop (i + 1) rest ((if i > 0 then result ++ "," else result) ++ broker)

/-- Go `(*KafkaConfig).GetBrokersString`. -/
def KafkaConfig.GetBrokersString (c : KafkaConfig) : String :=
  brokersLoop 0 c.Brokers ""

/-- The brokers joined by commas, as the specification words it: nothing for
no broker, the broker itself for one, and otherwise the first broker, a comma
and the rest joined. -/
def joinWithCommas : List String → String
  | [] => ""
  | [broker] => broker
  | broker :: next :: rest => broker ++ "," ++ joinWithCommas (next :: rest)

/-! ## http.go: the routes -/

/-- A request, by the route of `SetupRoutes` it matches, with the inputs its
handler reads. -/
inductive Request
  | health
  | login (body : JSONBody LoginRequest)
  | register (body : JSONBody RegisterRequest)
  | tokenVerify (authorization : Option String)
  | audioUpload (body : JSONBody AudioUploadRequest) (formFile : Except String Unit)
  | getResult (id : String)
  | getStatus (id : String)
  | createUploadJob (body : JSONBody CreateUploadJobRequest)
  | listUploadJobs
  | getUploadJobStatus (id : String)
  | deleteUploadJob (id : String)
  | uploadCompletionWebhook (id : String) (body : JSONBody UploadCompletionNotification)
  | deviceList
  | deviceInfo (id : String)
  | deviceRegister (body : JSONBody DeviceRegisterRequest)

/-- A request as it arrives: the clock readings and UUIDs its handler will get,
and the request. -/
structure Arrival where
  clock : Nat → Time
  uuids : Nat → UUID
  request : Request

/-- What a route writes: the outcome of a handler function, or the bare
`gin.H` of the health check. -/
inductive Reply
  | handler (outcome : Outcome)
  | raw (status : Int) (body : H)

/-- The library behaviour shared by all requests. -/
structure Library where
  uni : Char → Char
  errorText : BindError → String
  isEmail : String → Bool

/-- One request through its route. The only package variable a handler can
reach is `storageService`; the result is the reply and the value of that
variable after the handler has run. -/
def handle (lib : Library) (storage : StorageRef) (a : Arrival) : Reply × StorageRef :=
  let env : Env :=
    { uni := lib.uni, clock := a.clock, uuids := a.uuids, errorText := lib.errorText,
      storageService := storage }
  match a.request with
  | .health =>
    (.raw 200
      [("status", .str "ok"),
       ("message", .str "病虫害检测服务器运行正常"),
       ("time", .str ((a.clock 0).Format layoutDateTime))], storage)
  | .login body => (.handler (handleLogin env body), storage)
  | .register body => (.handler (handleRegister lib.isEmail env body), storage)
  | .tokenVerify authorization => (.handler (handleTokenVerify env authorization), storage)
  | .audioUpload body formFile => (.handler (handleAudioUpload env body formFile), storage)
  | .getResult id => (.handler (handleGetResult env id), storage)
  | .getStatus id => (.handler (handleGetStatus env id), storage)
  | .createUploadJob body => (.handler (CreateUploadJob env body).outcome, storage)
  | .listUploadJobs => (.handler (ListUploadJobs env), storage)
  | .getUploadJobStatus id => (.handler (GetUploadJobStatus env id), storage)
  | .deleteUploadJob id => (.handler (DeleteUploadJob env id), storage)
  | .uploadCompletionWebhook id body =>
    (.handler (UploadCompletionWebhook env id body), storage)
  | .deviceList => (.handler (handleDeviceList env), storage)
  | .deviceInfo id => (.handler (handleDeviceInfo env id), storage)
  | .deviceRegister body => (.handler (handleDeviceRegister env body), storage)

/-- The requests of a history handled one after the other: the value of
`storageService` at the end and the replies in order. -/
def serve (lib : Library) (storage : StorageRef) : List Arrival → StorageRef × List Reply
  | [] => (storage, [])
  | a :: rest =>
    let step := handle lib storage a
    let later := serve lib step.2 rest
    (later.1, step.1 :: later.2)

end RPW

namespace RPW

/-! ## Theorems: file type, file size, content type -/

theorem validateFileTypeLoop_iff (uni : Char → Char) (t : String) (l : List String) :
    validateFileTypeLoop uni t l = true ↔ ToLower uni t ∈ l := by
  induction l with
  | nil => simp [validateFileTypeLoop]
  | cons a rest ih =>
    by_cases h : ToLower uni t = a
    · simp [validateFileTypeLoop, h]
    · simp [validateFileTypeLoop, h, ih]

/-- C1: `ValidateFileType t` is true exactly when the lower-cased `t` is one of
`wav`, `mp3`, `flac`, `m4a`, `aac`; `WAV` and `MP3` are accepted, `txt`, `pdf`,
`doc`, the empty string and `.wav` are rejected. -/
theorem validateFileType_spec (uni : Char → Char) :
    (∀ t : String, ValidateFileType uni t = true ↔
        ToLower uni t ∈ ["wav", "mp3", "flac", "m4a", "aac"]) ∧
    ValidateFileType uni "WAV" = true ∧ ValidateFileType uni "MP3" = true ∧
    ValidateFileType uni "txt" = false ∧ ValidateFileType uni "pdf" = false ∧
    ValidateFileType uni "doc" = false ∧ ValidateFileType uni "" = false ∧
    ValidateFileType uni ".wav" = false :=
  ⟨fun t => validateFileTypeLoop_iff uni t allowedTypes, rfl, rfl, rfl, rfl, rfl, rfl, rfl⟩

theorem validateFileSize_iff (size max : Int) :
    ValidateFileSize size max = true ↔
      (0 < size ∧ size ≤ (if max > 0 then max else 104857600)) := by
  unfold ValidateFileSize
  by_cases h : max ≤ 0
  · have h2 : ¬ max > 0 := by omega
    simp [h, h2]
  · have h2 : max > 0 := by omega
    simp [h, h2]

/-- C2: `ValidateFileSize size max` is true exactly when `0 < size ≤ L`, where
`L` is `max` for a positive `max` and 104857600 otherwise; `size = max` is
accepted, zero and negative sizes are rejected. -/
theorem validateFileSize_spec :
    (∀ size max : Int, ValidateFileSize size max = true ↔
        (0 < size ∧ size ≤ (if max > 0 then max else 104857600))) ∧
    (∀ max : Int, 0 < max → ValidateFileSize max max = true) ∧
    (∀ size max : Int, size ≤ 0 → ValidateFileSize size max = false) := by
  refine ⟨validateFileSize_iff, ?_, ?_⟩
  · intro max h
    rw [validateFileSize_iff]
    simp [h]
  · intro size max h
    rw [← Bool.not_eq_true, validateFileSize_iff]
    omega

/-- The instances of C2 that the tests of the package check. -/
theorem validateFileSize_spec_witness :
    ValidateFileSize 104857600 104857600 = true ∧ ValidateFileSize (-1024) 104857600 = false ∧
    ValidateFileSize 0 104857600 = false :=
  ⟨validateFileSize_spec.2.1 104857600 (by decide),
   validateFileSize_spec.2.2 (-1024) 104857600 (by decide),
   validateFileSize_spec.2.2 0 104857600 (by decide)⟩

theorem ascii_lower_not_sep : ∀ n : Fin 128,
    (toLowerRune id (Char.ofNat n.val) = '.' → Char.ofNat n.val = '.') ∧
    (toLowerRune id (Char.ofNat n.val) = '/' → Char.ofNat n.val = '/') := by
  decide

theorem toLowerRune_ascii (uni : Char → Char) (c : Char) (h : c.toNat < 128) :
    toLowerRune uni c = toLowerRune id c := by
  simp [toLowerRune, h]

theorem toLowerRune_eq_dot (uni : Char → Char) (huni : KeepsSeparators uni) (c : Char) :
    toLowerRune uni c = '.' ↔ c = '.' := by
  constructor
  · intro h
    by_cases hc : c.toNat < 128
    · rw [toLowerRune_ascii uni c hc] at h
      have := (ascii_lower_not_sep ⟨c.toNat, hc⟩).1
      simp only [Char.ofNat_toNat] at this
      exact this h
    · have h2 : toLowerRune uni c = uni c := by simp [toLowerRune, hc]
      rw [h2] at h
      exact absurd h (huni c (by omega)).1
  · intro h; subst h; rfl

theorem toLowerRune_eq_slash (uni : Char → Char) (huni : KeepsSeparators uni) (c : Char) :
    toLowerRune uni c = '/' ↔ c = '/' := by
  constructor
  · intro h
    by_cases hc : c.toNat < 128
    · rw [toLowerRune_ascii uni c hc] at h
      have := (ascii_lower_not_sep ⟨c.toNat, hc⟩).2
      simp only [Char.ofNat_toNat] at this
      exact this h
    · have h2 : toLowerRune uni c = uni c := by simp [toLowerRune, hc]
      rw [h2] at h
      exact absurd h (huni c (by omega)).2
  · intro h; subst h; rfl

theorem extScan_map (f : Char → Char) (hdot : ∀ c, f c = '.' ↔ c = '.')
    (hslash : ∀ c, f c = '/' ↔ c = '/') (rev acc : List Char) :
    extScan (rev.map f) (acc.map f) = (extScan rev acc).map f := by
  induction rev generalizing acc with
  | nil => simp [extScan]
  | cons c rest ih =>
    simp only [List.map_cons, extScan, hdot, hslash]
    by_cases h1 : c = '/'
    · simp [h1]
    · by_cases h2 : c = '.'
      · simp [h2, (hdot '.').2 rfl]
      · simp only [h1, h2, if_false]
        have := ih (c :: acc)
        simpa using this

theorem Ext_ToLower (uni : Char → Char) (huni : KeepsSeparators uni) (name : String) :
    Ext (ToLower uni name) = ToLower uni (Ext name) := by
  unfold Ext ToLower
  have := extScan_map (toLowerRune uni) (toLowerRune_eq_dot uni huni)
    (toLowerRune_eq_slash uni huni) name.data.reverse []
  simp only [List.map_nil, List.map_reverse] at this
  simp only [this]

theorem extScan_append_dot (e p acc : List Char) (he : ∀ c ∈ e, c ≠ '.' ∧ c ≠ '/') :
    extScan (e.reverse ++ '.' :: p) acc = '.' :: (e ++ acc) := by
  induction e using List.reverseRecOn generalizing acc with
  | nil => simp [extScan]
  | append_singleton l a ih =>
    have ha := he a (by simp)
    simp only [List.reverse_append, List.reverse_cons, List.reverse_nil, List.nil_append,
      List.singleton_append, List.cons_append, extScan, ha.1, ha.2, if_false]
    rw [ih]
    · simp
    · intro c hc; exact he c (by simp [hc])

theorem extScan_no_dot (e rest acc : List Char) (he : ∀ c ∈ e, c ≠ '.' ∧ c ≠ '/')
    (hrest : rest = [] ∨ ∃ tail, rest = '/' :: tail) :
    extScan (e.reverse ++ rest) acc = [] := by
  induction e using List.reverseRecOn generalizing acc with
  | nil =>
    rcases hrest with h | ⟨tail, h⟩ <;> simp [h, extScan]
  | append_singleton l a ih =>
    have ha := he a (by simp)
    simp only [List.reverse_append, List.reverse_cons, List.reverse_nil, List.nil_append,
      List.singleton_append, List.cons_append, extScan, ha.1, ha.2, if_false]
    exact ih _ (fun c hc => he c (by simp [hc]))

theorem Ext_of_dot (p e : String) (he : ∀ c ∈ e.data, c ≠ '.' ∧ c ≠ '/') :
    Ext (p ++ "." ++ e) = "." ++ e := by
  unfold Ext
  have := extScan_append_dot e.data p.data.reverse [] he
  apply String.ext
  simp only [String.data_append, List.reverse_append, String.append]
  simpa using this

theorem Ext_of_no_dot (p e : String) (he : ∀ c ∈ e.data, c ≠ '.' ∧ c ≠ '/') :
    Ext e = "" ∧ Ext (p ++ "/" ++ e) = "" := by
  unfold Ext
  constructor
  · have := extScan_no_dot e.data [] [] he (Or.inl rfl)
    apply String.ext
    simpa using this
  · have := extScan_no_dot e.data ('/' :: p.data.reverse) [] he (Or.inr ⟨_, rfl⟩)
    apply String.ext
    simp only [String.data_append, List.reverse_append, String.append]
    simpa using this

theorem getContentType_default (uni : Char → Char) (name : String)
    (h : ToLower uni (Ext name) ∉ [".wav", ".mp3", ".flac", ".m4a", ".aac"]) :
    GetContentType uni name = "application/octet-stream" := by
  simp only [List.mem_cons, List.mem_singleton, List.not_mem_nil, or_false, not_or] at h
  obtain ⟨h1, h2, h3, h4, h5⟩ := h
  simp [GetContentType, h1, h2, h3, h4, h5]

theorem keepsSeparators_id : KeepsSeparators id := by
  intro c h
  constructor
  · intro hc
    simp only [id] at hc
    subst hc
    revert h
    decide
  · intro hc
    simp only [id] at hc
    subst hc
    revert h
    decide

/-- C3: `GetContentType` maps the lower-cased extension `.wav`, `.mp3`,
`.flac`, `.m4a`, `.aac` to `audio/wav`, `audio/mpeg`, `audio/flac`, `audio/mp4`,
`audio/aac` and everything else, a name without extension included, to
`application/octet-stream`; the extension is the text from the last dot of the
last path element; names that differ only in letter case get the same type. -/
theorem getContentType_spec (uni : Char → Char) (huni : KeepsSeparators uni) (name : String) :
    (ToLower uni (Ext name) = ".wav" → GetContentType uni name = "audio/wav") ∧
    (ToLower uni (Ext name) = ".mp3" → GetContentType uni name = "audio/mpeg") ∧
    (ToLower uni (Ext name) = ".flac" → GetContentType uni name = "audio/flac") ∧
    (ToLower uni (Ext name) = ".m4a" → GetContentType uni name = "audio/mp4") ∧
    (ToLower uni (Ext name) = ".aac" → GetContentType uni name = "audio/aac") ∧
    (ToLower uni (Ext name) ∉ [".wav", ".mp3", ".flac", ".m4a", ".aac"] →
      GetContentType uni name = "application/octet-stream") ∧
    (Ext name = "" → GetContentType uni name = "application/octet-stream") ∧
    (∀ p e : String, (∀ c ∈ e.data, c ≠ '.' ∧ c ≠ '/') →
      (name = p ++ "." ++ e → Ext name = "." ++ e) ∧
      (name = e ∨ name = p ++ "/" ++ e → Ext name = "")) ∧
    (∀ other : String, ToLower uni other = ToLower uni name →
      GetContentType uni other = GetContentType uni name) := by
  refine ⟨?_, ?_, ?_, ?_, ?_, getContentType_default uni name, ?_, ?_, ?_⟩
  · intro h; simp [GetContentType, h]
  · intro h; simp [GetContentType, h]
  · intro h; simp [GetContentType, h]
  · intro h; simp [GetContentType, h]
  · intro h; simp [GetContentType, h]
  · intro h
    apply getContentType_default
    rw [h]
    have hempty : ToLower uni "" = "" := rfl
    rw [hempty]
    decide
  · intro p e he
    constructor
    · intro h; rw [h]; exact Ext_of_dot p e he
    · intro h
      rcases h with h | h
      · rw [h]; exact (Ext_of_no_dot p e he).1
      · rw [h]; exact (Ext_of_no_dot p e he).2
  · intro other h
    have h1 : ToLower uni (Ext other) = ToLower uni (Ext name) := by
      rw [← Ext_ToLower uni huni, ← Ext_ToLower uni huni, h]
    simp only [GetContentType, h1]

/-- An instance of C3 from the tests: the upper-case name `AUDIO.WAV`. -/
theorem getContentType_spec_witness :
    KeepsSeparators id ∧ GetContentType id "AUDIO.WAV" = "audio/wav" ∧
    GetContentType id "audio.wav" = GetContentType id "AUDIO.WAV" :=
  ⟨keepsSeparators_id,
   (getContentType_spec id keepsSeparators_id "AUDIO.WAV").1 rfl,
   (getContentType_spec id keepsSeparators_id "AUDIO.WAV").2.2.2.2.2.2.2.2 "audio.wav" rfl⟩

end RPW

namespace RPW

/-! ## Theorems: creating an upload job -/

theorem hasPrefix_append (a b : String) : HasPrefix (a ++ b) a = true := by
  simp [HasPrefix, String.data_append]

/-- C4: a bound request with an accepted file type and a size between 1 and
104857600, for which the storage service returns the URL `u`, is answered with
HTTP 200 and an envelope with code 200, message `操作成功` and data holding
`upload_url = u`, bucket `pest-detection`, `ttl = 86400`, status `pending`, the
content type and size of the request, `required_fields = ["file"]` and a job ID
that begins with `job_`. -/
theorem createUploadJob_success (env : Env) (body : JSONBody CreateUploadJobRequest)
    (req : CreateUploadJobRequest) (u : String)
    (hbind : ShouldBindJSON CreateUploadJobRequest.required body = .ok req)
    (htype : ValidateFileType env.uni req.FileType = true)
    (hsize : 1 ≤ req.FileSize ∧ req.FileSize ≤ 104857600)
    (hurl : env.storageService.GeneratePresignedUploadURL (createPresignParams env req)
              = some (.ok u)) :
    ∃ (resp : Response) (data : CreateUploadJobResponse),
      (CreateUploadJob env body).outcome = .json 200 resp ∧
      resp.Code = 200 ∧ resp.Message = "操作成功" ∧
      resp.Data = some (.createUploadJob data) ∧
      data.UploadURL = u ∧ data.Bucket = "pest-detection" ∧ data.TTL = 86400 ∧
      data.Status = "pending" ∧ data.ContentType = req.ContentType ∧
      data.MaxFileSize = req.FileSize ∧ data.RequiredFields = ["file"] ∧
      HasPrefix data.JobID "job_" = true := by
  have hs : ValidateFileSize req.FileSize 104857600 = true :=
    (validateFileSize_iff _ _).2 ⟨by omega, by simpa using hsize.2⟩
  have hout : (CreateUploadJob env body).outcome =
      .json 200
        { Code := 200
          Message := "操作成功"
          Data := some (.createUploadJob
            { JobID := createJobID env
              UploadURL := u
              Bucket := "pest-detection"
              Key := createStorageKey env req
              TTL := 24 * 3600
              ExpiresAt := (env.clock 2).Add (24 * Hour)
              ContentType := req.ContentType
              MaxFileSize := req.FileSize
              RequiredFields := ["file"]
              Status := JobStatusPending
              CreatedAt := env.clock 3 })
          Time := (env.clock 4).Format layoutDateTime } := by
    simp [CreateUploadJob, hbind, htype, hs, hurl, successResponse]
  exact ⟨_, _, hout, rfl, rfl, rfl, rfl, rfl, rfl, rfl, rfl, rfl, rfl, hasPrefix_append _ _⟩

/-- An instance of C4: the request of `TestCreateUploadJob` with a storage
service that signs every key. -/
theorem createUploadJob_success_witness :
    ∃ (resp : Response) (data : CreateUploadJobResponse),
      (CreateUploadJob
          { uni := id
            clock := fun n => ⟨1704110400 + n, 0, 0⟩
            uuids := fun _ => ⟨List.replicate 16 171, rfl⟩
            errorText := fun _ => "invalid request"
            storageService := .other (fun p => .ok ("http://localhost:9000/" ++ p.Key)) }
          (.decoded ⟨"dev_001", "test_audio.wav", 1024000, "wav", "audio/wav", "测试音频文件"⟩)).outcome
        = .json 200 resp ∧
      resp.Code = 200 ∧ resp.Message = "操作成功" ∧
      resp.Data = some (.createUploadJob data) ∧
      data.UploadURL
        = "http://localhost:9000/dev_001/2024/01/01/12/test_audio_abababab.wav" ∧
      data.Bucket = "pest-detection" ∧ data.TTL = 86400 ∧
      data.Status = "pending" ∧ data.ContentType = "audio/wav" ∧
      data.MaxFileSize = 1024000 ∧ data.RequiredFields = ["file"] ∧
      HasPrefix data.JobID "job_" = true :=
  createUploadJob_success
    { uni := id
      clock := fun n => ⟨1704110400 + n, 0, 0⟩
      uuids := fun _ => ⟨List.replicate 16 171, rfl⟩
      errorText := fun _ => "invalid request"
      storageService := .other (fun p => .ok ("http://localhost:9000/" ++ p.Key)) }
    (.decoded ⟨"dev_001", "test_audio.wav", 1024000, "wav", "audio/wav", "测试音频文件"⟩)
    ⟨"dev_001", "test_audio.wav", 1024000, "wav", "audio/wav", "测试音频文件"⟩
    "http://localhost:9000/dev_001/2024/01/01/12/test_audio_abababab.wav"
    rfl rfl (by decide) rfl

/-- C5: a bound request whose file type `ValidateFileType` rejects is answered
with HTTP 400 and an envelope with code 400 and the message `不支持的文件类型: `
followed by the submitted type; the storage service is not called. -/
theorem createUploadJob_invalid_type (env : Env) (body : JSONBody CreateUploadJobRequest)
    (req : CreateUploadJobRequest)
    (hbind : ShouldBindJSON CreateUploadJobRequest.required body = .ok req)
    (htype : ValidateFileType env.uni req.FileType = false) :
    (CreateUploadJob env body).outcome =
      .json 400
        { Code := 400
          Message := "不支持的文件类型: " ++ req.FileType
          Data := none
          Time := (env.clock 0).Format layoutDateTime } ∧
    (CreateUploadJob env body).storageCalls = [] := by
  simp [CreateUploadJob, hbind, htype, errorResponse]

/-- An instance of C5: the request of `TestCreateUploadJobInvalidFileType`,
with no storage service at all. -/
theorem createUploadJob_invalid_type_witness :
    (CreateUploadJob
        { uni := id
          clock := fun n => ⟨1704110400 + n, 0, 0⟩
          uuids := fun _ => ⟨List.replicate 16 171, rfl⟩
          errorText := fun _ => "invalid request"
          storageService := .nilInterface }
        (.decoded ⟨"dev_001", "test_audio.txt", 1024000, "txt", "text/plain", "测试文本文件"⟩)).outcome
      = .json 400
        { Code := 400
          Message := "不支持的文件类型: " ++ "txt"
          Data := none
          Time := "2024-01-01 12:00:00" } :=
  (createUploadJob_invalid_type
    { uni := id
      clock := fun n => ⟨1704110400 + n, 0, 0⟩
      uuids := fun _ => ⟨List.replicate 16 171, rfl⟩
      errorText := fun _ => "invalid request"
      storageService := .nilInterface }
    (.decoded ⟨"dev_001", "test_audio.txt", 1024000, "txt", "text/plain", "测试文本文件"⟩)
    ⟨"dev_001", "test_audio.txt", 1024000, "txt", "text/plain", "测试文本文件"⟩ rfl rfl).1

/-- C6: a bound request with an accepted file type and a size above 104857600
or below zero is answered with HTTP 400 and an envelope with code 400 and the
message `文件大小超出限制`; the storage service is not called. -/
theorem createUploadJob_invalid_size (env : Env) (body : JSONBody CreateUploadJobRequest)
    (req : CreateUploadJobRequest)
    (hbind : ShouldBindJSON CreateUploadJobRequest.required body = .ok req)
    (htype : ValidateFileType env.uni req.FileType = true)
    (hsize : 104857600 < req.FileSize ∨ req.FileSize < 0) :
    (CreateUploadJob env body).outcome =
      .json 400
        { Code := 400
          Message := "文件大小超出限制"
          Data := none
          Time := (env.clock 0).Format layoutDateTime } ∧
    (CreateUploadJob env body).storageCalls = [] := by
  have hs : ValidateFileSize req.FileSize 104857600 = false := by
    rw [← Bool.not_eq_true, validateFileSize_iff]
    simp only [show ((104857600 : Int) > 0) from by decide, if_true]
    omega
  simp [CreateUploadJob, hbind, htype, hs, errorResponse]

/-- An instance of C6: the 200MB request of `TestCreateUploadJobFileTooLarge`. -/
theorem createUploadJob_invalid_size_witness :
    (CreateUploadJob
        { uni := id
          clock := fun n => ⟨1704110400 + n, 0, 0⟩
          uuids := fun _ => ⟨List.replicate 16 171, rfl⟩
          errorText := fun _ => "invalid request"
          storageService := .nilInterface }
        (.decoded ⟨"dev_001", "large_audio.wav", 209715200, "wav", "audio/wav", "大文件测试"⟩)).storageCalls
      = [] :=
  (createUploadJob_invalid_size
    { uni := id
      clock := fun n => ⟨1704110400 + n, 0, 0⟩
      uuids := fun _ => ⟨List.replicate 16 171, rfl⟩
      errorText := fun _ => "invalid request"
      storageService := .nilInterface }
    (.decoded ⟨"dev_001", "large_audio.wav", 209715200, "wav", "audio/wav", "大文件测试"⟩)
    ⟨"dev_001", "large_audio.wav", 209715200, "wav", "audio/wav", "大文件测试"⟩
    rfl rfl (Or.inl (by decide))).2

/-- C7, as the code behaves: with no storage service, be it the nil interface
left when `InitStorageService` never ran or the nil pointer stored when it
failed, `CreateUploadJob` on a valid request panics at the call of
`GeneratePresignedUploadURL` and writes no response. -/
theorem createUploadJob_without_storage_panics (env : Env)
    (body : JSONBody CreateUploadJobRequest) (req : CreateUploadJobRequest)
    (hbind : ShouldBindJSON CreateUploadJobRequest.required body = .ok req)
    (htype : ValidateFileType env.uni req.FileType = true)
    (hsize : 1 ≤ req.FileSize ∧ req.FileSize ≤ 104857600)
    (hnil : env.storageService = .nilInterface ∨ env.storageService = .minio none) :
    (CreateUploadJob env body).outcome = .panic ∧
    (CreateUploadJob env body).outcome.status = none ∧
    (CreateUploadJob env body).outcome.body = none := by
  have hs : ValidateFileSize req.FileSize 104857600 = true :=
    (validateFileSize_iff _ _).2 ⟨by omega, by simpa using hsize.2⟩
  have hcall : env.storageService.GeneratePresignedUploadURL (createPresignParams env req)
      = none := by
    rcases hnil with h | h <;> rw [h] <;> rfl
  have hout : (CreateUploadJob env body).outcome = .panic := by
    simp [CreateUploadJob, hbind, htype, hs, hcall]
  rw [hout]
  exact ⟨rfl, rfl, rfl⟩

/-- The failing input of C7: the request of `TestCreateUploadJob`, which runs
the handler without initialising the storage service. -/
theorem createUploadJob_without_storage_panics_witness :
    (CreateUploadJob
        { uni := id
          clock := fun n => ⟨1704110400 + n, 0, 0⟩
          uuids := fun _ => ⟨List.replicate 16 171, rfl⟩
          errorText := fun _ => "invalid request"
          storageService := .nilInterface }
        (.decoded ⟨"dev_001", "test_audio.wav", 1024000, "wav", "audio/wav", "测试音频文件"⟩)).outcome
      = .panic :=
  (createUploadJob_without_storage_panics
    { uni := id
      clock := fun n => ⟨1704110400 + n, 0, 0⟩
      uuids := fun _ => ⟨List.replicate 16 171, rfl⟩
      errorText := fun _ => "invalid request"
      storageService := .nilInterface }
    (.decoded ⟨"dev_001", "test_audio.wav", 1024000, "wav", "audio/wav", "测试音频文件"⟩)
    ⟨"dev_001", "test_audio.wav", 1024000, "wav", "audio/wav", "测试音频文件"⟩
    rfl rfl (by decide) (Or.inl rfl)).1

end RPW

namespace RPW

/-! ## Theorems: the response envelope -/

theorem digitChar_ne_T (d : Nat) : digitChar d ≠ 'T' := by
  have h : ∀ k : Fin 10, Char.ofNat (48 + k.val) ≠ 'T' := by decide
  exact h ⟨d % 10, Nat.mod_lt _ (by decide)⟩

theorem decimalAux_ne_T (fuel n : Nat) (acc : List Char) (hacc : ∀ c ∈ acc, c ≠ 'T') :
    ∀ c ∈ decimalAux fuel n acc, c ≠ 'T' := by
  induction fuel generalizing n acc with
  | zero => simpa [decimalAux] using hacc
  | succ fuel ih =>
    unfold decimalAux
    split
    · intro c hc
      rcases List.mem_cons.1 hc with h | h
      · rw [h]; exact digitChar_ne_T n
      · exact hacc c h
    · apply ih
      intro c hc
      rcases List.mem_cons.1 hc with h | h
      · rw [h]; exact digitChar_ne_T n
      · exact hacc c h

theorem appendInt_ne_T (x : Int) (width : Nat) : ∀ c ∈ appendInt x width, c ≠ 'T' := by
  intro c hc
  unfold appendInt at hc
  simp only [List.mem_append] at hc
  rcases hc with (h | h) | h
  · split at h
    · simp only [List.mem_singleton] at h
      rw [h]; decide
    · simp at h
  · rw [List.eq_of_mem_replicate h]; decide
  · exact decimalAux_ne_T _ _ [] (by simp) c h

theorem formatDateTime_ne_T (t : Time) : ∀ c ∈ (t.Format layoutDateTime).data, c ≠ 'T' := by
  intro c hc
  simp only [Time.Format, layoutDateTime, List.flatMap_cons, List.flatMap_nil, formatItem,
    List.mem_append, List.mem_singleton, List.append_nil] at hc
  rcases hc with h | h | h | h | h | h | h | h | h | h | h
  all_goals first
    | exact appendInt_ne_T _ _ c h
    | (rw [h]; decide)

/-- The RFC 3339 parser demands a `T` in the eleventh place. -/
theorem parseRFC3339_needs_T (s : String) (h : s.data.get? 10 ≠ some 'T') :
    parseRFC3339 s = none := by
  unfold parseRFC3339
  simp only [h, false_and, and_false, if_false]
  split
  · rfl
  · split
    · split <;> rfl
    · rfl

theorem parseRFC3339_formatDateTime (t : Time) :
    parseRFC3339 (t.Format layoutDateTime) = none := by
  apply parseRFC3339_needs_T
  intro h
  exact formatDateTime_ne_T t 'T' (List.get?_mem h) rfl

/-- C8, as the code behaves: the `time` of every envelope written by
`successResponse` or `errorResponse` is laid out as `2006-01-02 15:04:05`, with
a space and no zone, so for every clock reading, payload, code and message the
decoding of the envelope into an `APIResponse` fails at the `time` field. -/
theorem envelope_time_not_rfc3339 (now : Time) :
    (∀ (data : Payload) (body : Response),
        (successResponse now data).body = some body →
        parseRFC3339 body.Time = none ∧
        decodeAPIResponse body = .error ("parsing time " ++ body.Time)) ∧
    (∀ (code : Int) (message : String) (body : Response),
        (errorResponse now code message).body = some body →
        parseRFC3339 body.Time = none ∧
        decodeAPIResponse body = .error ("parsing time " ++ body.Time)) := by
  constructor
  · intro data body h
    simp only [successResponse, Outcome.body, Option.some.injEq] at h
    subst h
    simp [decodeAPIResponse, parseRFC3339_formatDateTime]
  · intro code message body h
    simp only [errorResponse, Outcome.body, Option.some.injEq] at h
    subst h
    simp [decodeAPIResponse, parseRFC3339_formatDateTime]

/-- The failing input of C8: the envelopes written at 2024-01-01 12:00:00 UTC
carry the time `2024-01-01 12:00:00`, which does not decode, while the RFC 3339
form of the same instant does. -/
theorem envelope_time_not_rfc3339_witness :
    (errorResponse ⟨1704110400, 0, 0⟩ 400 "文件大小超出限制").body
      = some ⟨400, "文件大小超出限制", none, "2024-01-01 12:00:00"⟩ ∧
    decodeAPIResponse ⟨400, "文件大小超出限制", none, "2024-01-01 12:00:00"⟩
      = .error "parsing time 2024-01-01 12:00:00" ∧
    decodeAPIResponse ⟨400, "文件大小超出限制", none, "2024-01-01T12:00:00Z"⟩
      = .ok ⟨400, "文件大小超出限制", ⟨1704110400, 0, 0⟩⟩ :=
  ⟨rfl,
   ((envelope_time_not_rfc3339 ⟨1704110400, 0, 0⟩).2 400 "文件大小超出限制"
      ⟨400, "文件大小超出限制", none, "2024-01-01 12:00:00"⟩ rfl).2,
   rfl⟩

end RPW

namespace RPW

/-! ## Theorems: authentication -/

theorem jwtAuth_empty (parse : String → String → Except String Token) (now : Time)
    (config : JWTConfig) (authorization : Option String) (h : GetHeader authorization = "") :
    JWTAuthMiddleware parse now config authorization = unauthorized now "缺少认证token" := by
  simp [JWTAuthMiddleware, h]

theorem split_bearer_ne_empty (header tokenString : String)
    (h : Split header ' ' = ["Bearer", tokenString]) : header ≠ "" := by
  intro he
  rw [he] at h
  simp [Split, splitRunes] at h

theorem jwtAuth_shape (parse : String → String → Except String Token) (now : Time)
    (config : JWTConfig) (authorization : Option String) (h : GetHeader authorization ≠ "")
    (hshape : ∀ tokenString, Split (GetHeader authorization) ' ' ≠ ["Bearer", tokenString]) :
    JWTAuthMiddleware parse now config authorization = unauthorized now "Token格式错误" := by
  unfold JWTAuthMiddleware
  simp only [h, if_false]
  split
  · rename_i bearer tokenString hsplit
    by_cases hb : bearer = "Bearer"
    · subst hb
      exact absurd hsplit (hshape tokenString)
    · simp [hb]
  · rfl

theorem jwtAuth_rejected (parse : String → String → Except String Token) (now : Time)
    (config : JWTConfig) (authorization : Option String) (tokenString err : String)
    (hsplit : Split (GetHeader authorization) ' ' = ["Bearer", tokenString])
    (hv : ValidateJWT parse tokenString config = .error err) :
    JWTAuthMiddleware parse now config authorization = unauthorized now "Token无效或已过期" := by
  unfold JWTAuthMiddleware
  simp [split_bearer_ne_empty _ _ hsplit, hsplit, hv]

theorem jwtAuth_accepted (parse : String → String → Except String Token) (now : Time)
    (config : JWTConfig) (authorization : Option String) (tokenString : String)
    (claims : JWTClaims)
    (hsplit : Split (GetHeader authorization) ' ' = ["Bearer", tokenString])
    (hv : ValidateJWT parse tokenString config = .ok claims) :
    JWTAuthMiddleware parse now config authorization =
      { written := none
        aborted := false
        next := true
        keys := [("user_id", .str claims.UserID), ("username", .str claims.Username),
                 ("jwt_claims", .claims claims)] } := by
  unfold JWTAuthMiddleware
  simp [split_bearer_ne_empty _ _ hsplit, hsplit, hv]

/-- C9: `JWTAuthMiddleware` calls the next handler exactly when the
`Authorization` header, split at the space, is `Bearer` and one more part that
`ValidateJWT` accepts; it then stores the user id and username of the claims
under `user_id` and `username` and writes nothing. Otherwise it answers HTTP 401
with code 401 and aborts, with message `缺少认证token` for an empty header,
`Token格式错误` for a header of another shape (`Bearer  x`, `bearer x`), and
`Token无效或已过期` for a token that `ValidateJWT` rejects. -/
theorem jwtAuthMiddleware_spec (parse : String → String → Except String Token) (now : Time)
    (config : JWTConfig) (authorization : Option String) :
    ((JWTAuthMiddleware parse now config authorization).next = true ↔
      ∃ (tokenString : String) (claims : JWTClaims),
        Split (GetHeader authorization) ' ' = ["Bearer", tokenString] ∧
        ValidateJWT parse tokenString config = .ok claims) ∧
    (∀ (tokenString : String) (claims : JWTClaims),
      Split (GetHeader authorization) ' ' = ["Bearer", tokenString] →
      ValidateJWT parse tokenString config = .ok claims →
      (JWTAuthMiddleware parse now config authorization).written = none ∧
      (JWTAuthMiddleware parse now config authorization).aborted = false ∧
      (JWTAuthMiddleware parse now config authorization).keys.lookup "user_id"
        = some (.str claims.UserID) ∧
      (JWTAuthMiddleware parse now config authorization).keys.lookup "username"
        = some (.str claims.Username)) ∧
    ((JWTAuthMiddleware parse now config authorization).next = false →
      ∃ message : String,
        JWTAuthMiddleware parse now config authorization =
          { written := some (401,
              [("code", .int 401), ("message", .str message),
               ("time", .str (now.Format layoutDateTime))])
            aborted := true
            next := false
            keys := [] } ∧
        (GetHeader authorization = "" → message = "缺少认证token") ∧
        (GetHeader authorization ≠ "" →
          (∀ tokenString, Split (GetHeader authorization) ' ' ≠ ["Bearer", tokenString]) →
          message = "Token格式错误") ∧
        (∀ tokenString err, Split (GetHeader authorization) ' ' = ["Bearer", tokenString] →
          ValidateJWT parse tokenString config = .error err →
          message = "Token无效或已过期")) ∧
    JWTAuthMiddleware parse now config (some "Bearer  x") = unauthorized now "Token格式错误" ∧
    JWTAuthMiddleware parse now config (some "bearer x") = unauthorized now "Token格式错误" ∧
    JWTAuthMiddleware parse now config none = unauthorized now "缺少认证token" := by
  refine ⟨?_, ?_, ?_, ?_, ?_, ?_⟩
  · constructor
    · intro hnext
      by_cases he : GetHeader authorization = ""
      · rw [jwtAuth_empty parse now config authorization he] at hnext
        simp [unauthorized] at hnext
      · by_cases hshape :
            ∃ tokenString, Split (GetHeader authorization) ' ' = ["Bearer", tokenString]
        · obtain ⟨tokenString, hsplit⟩ := hshape
          cases hv : ValidateJWT parse tokenString config with
          | error err =>
            rw [jwtAuth_rejected parse now config authorization tokenString err hsplit hv]
              at hnext
            simp [unauthorized] at hnext
          | ok claims => exact ⟨tokenString, claims, hsplit, hv⟩
        · rw [jwtAuth_shape parse now config authorization he
            (fun tok h => hshape ⟨tok, h⟩)] at hnext
          simp [unauthorized] at hnext
    · rintro ⟨tokenString, claims, hsplit, hv⟩
      rw [jwtAuth_accepted parse now config authorization tokenString claims hsplit hv]
  · intro tokenString claims hsplit hv
    rw [jwtAuth_accepted parse now config authorization tokenString claims hsplit hv]
    exact ⟨rfl, rfl, rfl, rfl⟩
  · intro hnext
    by_cases he : GetHeader authorization = ""
    · refine ⟨"缺少认证token", jwtAuth_empty parse now config authorization he,
        fun _ => rfl, fun h => absurd he h, ?_⟩
      intro tokenString err hsplit _
      exact absurd he (split_bearer_ne_empty _ _ hsplit)
    · by_cases hshape :
          ∃ tokenString, Split (GetHeader authorization) ' ' = ["Bearer", tokenString]
      · obtain ⟨tokenString, hsplit⟩ := hshape
        cases hv : ValidateJWT parse tokenString config with
        | error err =>
          refine ⟨"Token无效或已过期",
            jwtAuth_rejected parse now config authorization tokenString err hsplit hv,
            fun h => absurd h he, fun _ h => absurd hsplit (h tokenString), fun _ _ _ _ => rfl⟩
        | ok claims =>
          rw [jwtAuth_accepted parse now config authorization tokenString claims hsplit hv]
            at hnext
          simp at hnext
      · refine ⟨"Token格式错误",
          jwtAuth_shape parse now config authorization he (fun tok h => hshape ⟨tok, h⟩),
          fun h => absurd h he, fun _ _ => rfl, ?_⟩
        intro tokenString err hsplit _
        exact absurd ⟨tokenString, hsplit⟩ hshape
  · rfl
  · rfl
  · rfl

/-- An instance of C9: a well-formed header whose token the parser accepts,
and the same header when the parser rejects it. -/
theorem jwtAuthMiddleware_spec_witness :
    (JWTAuthMiddleware (fun _ _ => .ok ⟨⟨"u1", "alice", none, none, none⟩, true⟩)
        ⟨1704110400, 0, 0⟩ NewJWTConfig (some "Bearer abc")).keys.lookup "username"
      = some (.str "alice") ∧
    ∃ message : String,
      JWTAuthMiddleware (fun _ _ => .error "token is expired")
          ⟨1704110400, 0, 0⟩ NewJWTConfig (some "Bearer abc") =
        { written := some (401,
            [("code", .int 401), ("message", .str message),
             ("time", .str ((⟨1704110400, 0, 0⟩ : Time).Format layoutDateTime))])
          aborted := true
          next := false
          keys := [] } ∧
      message = "Token无效或已过期" := by
  refine ⟨((jwtAuthMiddleware_spec (fun _ _ => .ok ⟨⟨"u1", "alice", none, none, none⟩, true⟩)
      ⟨1704110400, 0, 0⟩ NewJWTConfig (some "Bearer abc")).2.1 "abc"
      ⟨"u1", "alice", none, none, none⟩ rfl rfl).2.2.2, ?_⟩
  obtain ⟨message, hrun, _, _, hmsg⟩ :=
    (jwtAuthMiddleware_spec (fun _ _ => .error "token is expired")
      ⟨1704110400, 0, 0⟩ NewJWTConfig (some "Bearer abc")).2.2.1 rfl
  exact ⟨message, hrun, hmsg "abc" "token is expired" rfl rfl⟩

/-! ## Theorems: login -/

/-- C10: `handleLogin` answers HTTP 400 with a message that begins
`请求参数错误: ` when the body does not decode or leaves the username or the
password empty; every other request, whatever its username and password, is
answered with HTTP 200, message `操作成功` and data whose `user.username` is the
submitted username. -/
theorem handleLogin_spec (env : Env) :
    (∀ err : String, ∃ body : Response,
      handleLogin env (.malformed err) = .json 400 body ∧ body.Code = 400 ∧
      HasPrefix body.Message "请求参数错误: " = true) ∧
    (∀ req : LoginRequest, req.Username = "" ∨ req.Password = "" →
      ∃ body : Response,
        handleLogin env (.decoded req) = .json 400 body ∧ body.Code = 400 ∧
        HasPrefix body.Message "请求参数错误: " = true) ∧
    (∀ req : LoginRequest, req.Username ≠ "" → req.Password ≠ "" →
      ∃ (body : Response) (data : H) (user : JSONValue),
        handleLogin env (.decoded req) = .json 200 body ∧ body.Code = 200 ∧
        body.Message = "操作成功" ∧ body.Data = some (.h data) ∧
        data.get "user" = some user ∧ user.field "username" = some (.str req.Username)) := by
  refine ⟨?_, ?_, ?_⟩
  · intro err
    exact ⟨_, rfl, rfl, hasPrefix_append _ _⟩
  · intro req h
    have hbind : ∃ e, ShouldBindJSON LoginRequest.required (.decoded req) = .error e := by
      by_cases hu : req.Username = ""
      · by_cases hp : req.Password = "" <;>
          simp [ShouldBindJSON, LoginRequest.required, missingFields, hu, hp]
      · have hp : req.Password = "" := h.resolve_left hu
        simp [ShouldBindJSON, LoginRequest.required, missingFields, hu, hp]
    obtain ⟨e, he⟩ := hbind
    refine ⟨⟨400, "请求参数错误: " ++ env.errorText e, none,
      (env.clock 0).Format layoutDateTime⟩, ?_, rfl, hasPrefix_append _ _⟩
    simp [handleLogin, he, errorResponse]
  · intro req hu hp
    have hbind : ShouldBindJSON LoginRequest.required (.decoded req) = .ok req := by
      simp [ShouldBindJSON, LoginRequest.required, missingFields, hu, hp]
    have hout : handleLogin env (.decoded req) =
        .json 200
          { Code := 200
            Message := "操作成功"
            Data := some (.h
              [("token", .str "eyJhbGciOiJIUzI1NiIsInR5cCI6IkpXVCJ9..."),
               ("user", .obj
                  [("username", .str req.Username),
                   ("login_time", .str ((env.clock 0).Format layoutDateTime))])])
            Time := (env.clock 1).Format layoutDateTime } := by
      simp only [handleLogin, hbind, successResponse]
    exact ⟨_, _, _, hout, rfl, rfl, rfl, rfl, rfl⟩

/-- Instances of C10: a login with an arbitrary password succeeds, one with an
empty password is refused. -/
theorem handleLogin_spec_witness :
    (∃ (body : Response) (data : H) (user : JSONValue),
      handleLogin ⟨id, fun n => ⟨1704110400 + n, 0, 0⟩, fun _ => ⟨List.replicate 16 171, rfl⟩,
          fun _ => "invalid request", .nilInterface⟩ (.decoded ⟨"testuser", "wrong"⟩)
        = .json 200 body ∧ body.Code = 200 ∧
      body.Message = "操作成功" ∧ body.Data = some (.h data) ∧
      data.get "user" = some user ∧ user.field "username" = some (.str "testuser")) ∧
    (∃ body : Response,
      handleLogin ⟨id, fun n => ⟨1704110400 + n, 0, 0⟩, fun _ => ⟨List.replicate 16 171, rfl⟩,
          fun _ => "invalid request", .nilInterface⟩ (.decoded ⟨"testuser", ""⟩)
        = .json 400 body ∧ body.Code = 400 ∧
      HasPrefix body.Message "请求参数错误: " = true) :=
  ⟨(handleLogin_spec ⟨id, fun n => ⟨1704110400 + n, 0, 0⟩, fun _ => ⟨List.replicate 16 171, rfl⟩,
      fun _ => "invalid request", .nilInterface⟩).2.2 ⟨"testuser", "wrong"⟩
      (by decide) (by decide),
   (handleLogin_spec ⟨id, fun n => ⟨1704110400 + n, 0, 0⟩, fun _ => ⟨List.replicate 16 171, rfl⟩,
      fun _ => "invalid request", .nilInterface⟩).2.1 ⟨"testuser", ""⟩ (Or.inr rfl)⟩

end RPW

namespace RPW

/-! ## Theorems: token verification and panic recovery -/

/-- C11: `handleTokenVerify` answers HTTP 401 with code 401 and message
`缺少认证token` exactly when the `Authorization` header is absent or empty; every
non-empty header value, well-formed or not, gets HTTP 200 with `valid = true`. -/
theorem handleTokenVerify_spec (env : Env) (authorization : Option String) :
    (handleTokenVerify env authorization =
        .json 401
          { Code := 401
            Message := "缺少认证token"
            Data := none
            Time := (env.clock 0).Format layoutDateTime }
      ↔ (authorization = none ∨ authorization = some "")) ∧
    (∀ token : String, authorization = some token → token ≠ "" →
      ∃ (body : Response) (data : H),
        handleTokenVerify env authorization = .json 200 body ∧ body.Code = 200 ∧
        body.Data = some (.h data) ∧ data.get "valid" = some (.bool true)) := by
  constructor
  · constructor
    · intro h
      cases authorization with
      | none => exact Or.inl rfl
      | some token =>
        by_cases ht : token = ""
        · exact Or.inr (by rw [ht])
        · simp [handleTokenVerify, GetHeader, ht, successResponse] at h
    · intro h
      rcases h with h | h <;> subst h <;> rfl
  · intro token hauth ht
    subst hauth
    have hout : handleTokenVerify env (some token) =
        .json 200
          { Code := 200
            Message := "操作成功"
            Data := some (.h [("message", .str "Token验证成功"), ("valid", .bool true)])
            Time := (env.clock 0).Format layoutDateTime } := by
      simp [handleTokenVerify, GetHeader, ht, successResponse]
    exact ⟨_, _, hout, rfl, rfl, rfl⟩

/-- Instances of C11: a header that is no token at all is verified, and a
missing header is refused. -/
theorem handleTokenVerify_spec_witness :
    (∃ (body : Response) (data : H),
      handleTokenVerify ⟨id, fun n => ⟨1704110400 + n, 0, 0⟩,
          fun _ => ⟨List.replicate 16 171, rfl⟩, fun _ => "invalid request", .nilInterface⟩
          (some "not a token") = .json 200 body ∧ body.Code = 200 ∧
      body.Data = some (.h data) ∧ data.get "valid" = some (.bool true)) ∧
    handleTokenVerify ⟨id, fun n => ⟨1704110400 + n, 0, 0⟩,
        fun _ => ⟨List.replicate 16 171, rfl⟩, fun _ => "invalid request", .nilInterface⟩ none
      = .json 401 ⟨401, "缺少认证token", none, "2024-01-01 12:00:00"⟩ :=
  ⟨(handleTokenVerify_spec ⟨id, fun n => ⟨1704110400 + n, 0, 0⟩,
      fun _ => ⟨List.replicate 16 171, rfl⟩, fun _ => "invalid request", .nilInterface⟩
      (some "not a token")).2 "not a token" rfl (by decide),
   ((handleTokenVerify_spec ⟨id, fun n => ⟨1704110400 + n, 0, 0⟩,
      fun _ => ⟨List.replicate 16 171, rfl⟩, fun _ => "invalid request", .nilInterface⟩
      none).1).2 (Or.inl rfl)⟩

/-- C12: when a handler panics, `ErrorHandlerMiddleware` answers HTTP 500 with a
JSON object holding code 500, a message and a time, and aborts the chain; the
message is `服务器内部错误: ` followed by `s` for a panic with the string `s`, and
exactly `服务器内部错误` for a panic with any value that is not a string. -/
theorem errorHandlerMiddleware_spec (now : Time) (recovered : PanicValue) :
    ∃ message : String,
      ErrorHandlerMiddleware now (some recovered) =
        { written := some (500,
            [("code", .int 500), ("message", .str message),
             ("time", .str (now.Format layoutDateTime))])
          aborted := true
          next := true
          keys := [] } ∧
      (∀ s : String, recovered = .str s → message = "服务器内部错误: " ++ s) ∧
      ((∀ s : String, recovered ≠ .str s) → message = "服务器内部错误") := by
  cases recovered with
  | str s =>
    refine ⟨"服务器内部错误: " ++ s, rfl, ?_, ?_⟩
    · intro s2 h
      cases h
      rfl
    · intro h
      exact absurd rfl (h s)
  | error text =>
    refine ⟨"服务器内部错误", rfl, ?_, fun _ => rfl⟩
    intro s h
    cases h
  | other description =>
    refine ⟨"服务器内部错误", rfl, ?_, fun _ => rfl⟩
    intro s h
    cases h

/-- Instances of C12: a panic with the string `boom`, and the nil-dereference
runtime error of a handler that calls a missing storage service. -/
theorem errorHandlerMiddleware_spec_witness :
    (∃ message : String,
      (ErrorHandlerMiddleware ⟨1704110400, 0, 0⟩ (some (.str "boom"))).written =
        some (500, [("code", .int 500), ("message", .str message),
          ("time", .str "2024-01-01 12:00:00")]) ∧
      message = "服务器内部错误: " ++ "boom") ∧
    (∃ message : String,
      (ErrorHandlerMiddleware ⟨1704110400, 0, 0⟩
          (some (.error "invalid memory address or nil pointer dereference"))).written =
        some (500, [("code", .int 500), ("message", .str message),
          ("time", .str "2024-01-01 12:00:00")]) ∧
      message = "服务器内部错误") := by
  constructor
  · obtain ⟨message, hrun, hstr, _⟩ :=
      errorHandlerMiddleware_spec ⟨1704110400, 0, 0⟩ (.str "boom")
    exact ⟨message, by rw [hrun]; rfl, hstr "boom" rfl⟩
  · obtain ⟨message, hrun, _, hother⟩ :=
      errorHandlerMiddleware_spec ⟨1704110400, 0, 0⟩
        (.error "invalid memory address or nil pointer dereference")
    exact ⟨message, by rw [hrun]; rfl, hother (fun s h => by cases h)⟩

end RPW

namespace RPW

/-! ## Theorems: the job handlers and the job state -/

/-- C17: for a non-empty path id and a body that decodes into the completion
notification, `UploadCompletionWebhook` answers HTTP 200 with `job_id` equal to
the path id and status `completed`, whatever `job_id` the body carries; a body
that does not decode gets HTTP 400 with a message that begins `回调参数错误: `; an
empty path id gets HTTP 400 with message `任务ID不能为空`. -/
theorem uploadCompletionWebhook_spec (env : Env) :
    (∀ (id : String) (notification : UploadCompletionNotification), id ≠ "" →
      ∃ (body : Response) (data : H),
        UploadCompletionWebhook env id (.decoded notification) = .json 200 body ∧
        body.Code = 200 ∧ body.Data = some (.h data) ∧
        data.get "job_id" = some (.str id) ∧ data.get "status" = some (.str "completed")) ∧
    (∀ (id err : String), id ≠ "" →
      ∃ body : Response,
        UploadCompletionWebhook env id (.malformed err) = .json 400 body ∧
        body.Code = 400 ∧ HasPrefix body.Message "回调参数错误: " = true) ∧
    (∀ body : JSONBody UploadCompletionNotification,
      UploadCompletionWebhook env "" body =
        .json 400
          { Code := 400
            Message := "任务ID不能为空"
            Data := none
            Time := (env.clock 0).Format layoutDateTime }) := by
  refine ⟨?_, ?_, ?_⟩
  · intro id notification hid
    have hout : UploadCompletionWebhook env id (.decoded notification) =
        .json 200
          { Code := 200
            Message := "操作成功"
            Data := some (.h
              [("message", .str "上传完成回调处理成功"),
               ("job_id", .str id),
               ("status", .str "completed")])
            Time := (env.clock 0).Format layoutDateTime } := by
      simp [UploadCompletionWebhook, hid, ShouldBindJSON, UploadCompletionNotification.required,
        missingFields, successResponse]
    exact ⟨_, _, hout, rfl, rfl, rfl, rfl⟩
  · intro id err hid
    have hout : UploadCompletionWebhook env id (.malformed err) =
        .json 400
          { Code := 400
            Message := "回调参数错误: " ++ env.errorText (.decode err)
            Data := none
            Time := (env.clock 0).Format layoutDateTime } := by
      simp [UploadCompletionWebhook, hid, ShouldBindJSON, errorResponse]
    exact ⟨_, hout, rfl, hasPrefix_append _ _⟩
  · intro body
    rfl

/-- An instance of C17: the path id `job_123` with a body that names another
job. -/
theorem uploadCompletionWebhook_spec_witness :
    ∃ (body : Response) (data : H),
      UploadCompletionWebhook ⟨id, fun n => ⟨1704110400 + n, 0, 0⟩,
          fun _ => ⟨List.replicate 16 171, rfl⟩, fun _ => "invalid request", .nilInterface⟩
          "job_123" (.decoded ⟨"job_999", "pest-detection", "k", "e", 10, zeroTime⟩)
        = .json 200 body ∧
      body.Code = 200 ∧ body.Data = some (.h data) ∧
      data.get "job_id" = some (.str "job_123") ∧
      data.get "status" = some (.str "completed") :=
  (uploadCompletionWebhook_spec ⟨id, fun n => ⟨1704110400 + n, 0, 0⟩,
    fun _ => ⟨List.replicate 16 171, rfl⟩, fun _ => "invalid request", .nilInterface⟩).1
    "job_123" ⟨"job_999", "pest-detection", "k", "e", 10, zeroTime⟩ (by decide)

theorem handle_storage (lib : Library) (storage : StorageRef) (a : Arrival) :
    (handle lib storage a).2 = storage := by
  unfold handle
  cases a.request <;> rfl

theorem serve_storage (lib : Library) (storage : StorageRef) (history : List Arrival) :
    (serve lib storage history).1 = storage := by
  induction history generalizing storage with
  | nil => rfl
  | cons a rest ih =>
    simp only [serve]
    rw [ih, handle_storage]

theorem serve_length (lib : Library) (storage : StorageRef) (history : List Arrival) :
    (serve lib storage history).2.length = history.length := by
  induction history generalizing storage with
  | nil => rfl
  | cons a rest ih =>
    simp only [serve, List.length_cons]
    rw [ih]

/-- C18: job state is never transitioned. After any history of requests, the
completion webhook and the deletion of the same job included, every handler has
left the package state as it found it, and `GetUploadJobStatus` on a non-empty
id answers HTTP 200 with a job whose id is the requested id and whose status is
`pending`. -/
theorem getUploadJobStatus_always_pending (lib : Library) (storage : StorageRef)
    (history : List Arrival) (clock : Nat → Time) (uuids : Nat → UUID) (id : String)
    (hid : id ≠ "") :
    (serve lib storage history).1 = storage ∧
    (∀ a : Arrival, (handle lib storage a).2 = storage) ∧
    ∃ (body : Response) (job : UploadJob),
      (handle lib (serve lib storage history).1 ⟨clock, uuids, .getUploadJobStatus id⟩).1
        = .handler (.json 200 body) ∧
      body.Code = 200 ∧ body.Data = some (.uploadJob job) ∧
      job.ID = id ∧ job.Status = "pending" := by
  refine ⟨serve_storage lib storage history, handle_storage lib storage, ?_⟩
  have hout :
      (handle lib (serve lib storage history).1 ⟨clock, uuids, .getUploadJobStatus id⟩).1 =
        .handler (.json 200
          { Code := 200
            Message := "操作成功"
            Data := some (.uploadJob
              { ID := id
                DeviceID := "dev_001"
                FileName := "audio_sample.wav"
                FileSize := 1024000
                FileType := "wav"
                ContentType := "audio/wav"
                Status := JobStatusPending
                CreatedAt := clock 0
                UpdatedAt := clock 1 })
            Time := (clock 2).Format layoutDateTime }) := by
    simp [handle, GetUploadJobStatus, hid, successResponse]
  exact ⟨_, _, hout, rfl, rfl, rfl, rfl⟩

/-- An instance of C18: the status of `job_123` asked after its completion
webhook and its deletion have both succeeded. -/
theorem getUploadJobStatus_always_pending_witness :
    ∃ (body : Response) (job : UploadJob),
      (handle ⟨id, fun _ => "invalid request", fun _ => true⟩
        (serve ⟨id, fun _ => "invalid request", fun _ => true⟩ .nilInterface
          [⟨fun n => ⟨1704110400 + n, 0, 0⟩, fun _ => ⟨List.replicate 16 171, rfl⟩,
              .uploadCompletionWebhook "job_123"
                (.decoded ⟨"job_123", "pest-detection", "k", "e", 10, zeroTime⟩)⟩,
           ⟨fun n => ⟨1704110500 + n, 0, 0⟩, fun _ => ⟨List.replicate 16 171, rfl⟩,
              .deleteUploadJob "job_123"⟩]).1
        ⟨fun n => ⟨1704110600 + n, 0, 0⟩, fun _ => ⟨List.replicate 16 171, rfl⟩,
          .getUploadJobStatus "job_123"⟩).1
        = .handler (.json 200 body) ∧
      body.Code = 200 ∧ body.Data = some (.uploadJob job) ∧
      job.ID = "job_123" ∧ job.Status = "pending" :=
  (getUploadJobStatus_always_pending ⟨id, fun _ => "invalid request", fun _ => true⟩
    .nilInterface
    [⟨fun n => ⟨1704110400 + n, 0, 0⟩, fun _ => ⟨List.replicate 16 171, rfl⟩,
        .uploadCompletionWebhook "job_123"
          (.decoded ⟨"job_123", "pest-detection", "k", "e", 10, zeroTime⟩)⟩,
     ⟨fun n => ⟨1704110500 + n, 0, 0⟩, fun _ => ⟨List.replicate 16 171, rfl⟩,
        .deleteUploadJob "job_123"⟩]
    (fun n => ⟨1704110600 + n, 0, 0⟩) (fun _ => ⟨List.replicate 16 171, rfl⟩)
    "job_123" (by decide)).2.2

/-! ## Theorems: configuration -/

/-- C19, as the code behaves: `getStringSliceEnv` does not split. A set,
non-empty value comes back as one element, commas included; the default comes
back when the variable is unset or empty. -/
theorem getStringSliceEnv_no_split (getenv : String → String) (key : String)
    (defaultValue : List String) :
    (getenv key ≠ "" → getStringSliceEnv getenv key defaultValue = [getenv key]) ∧
    (getenv key = "" → getStringSliceEnv getenv key defaultValue = defaultValue) := by
  constructor
  · intro h
    simp [getStringSliceEnv, h]
  · intro h
    simp [getStringSliceEnv, h]

/-- The failing input of C19: with `KAFKA_BROKERS` set to `a:9092,b:9092` the
configuration holds the single broker `a:9092,b:9092`, not the two brokers that
splitting at the comma gives. -/
theorem getStringSliceEnv_no_split_witness :
    loadKafkaBrokers (fun key => if key = "KAFKA_BROKERS" then "a:9092,b:9092" else "")
      = ["a:9092,b:9092"] ∧
    Split "a:9092,b:9092" ',' = ["a:9092", "b:9092"] ∧
    loadKafkaBrokers (fun key => if key = "KAFKA_BROKERS" then "a:9092,b:9092" else "")
      ≠ Split "a:9092,b:9092" ',' :=
  ⟨(getStringSliceEnv_no_split
      (fun key => if key = "KAFKA_BROKERS" then "a:9092,b:9092" else "")
      "KAFKA_BROKERS" ["localhost:9092"]).1 (by decide),
   by decide, by decide⟩

/-! ## Theorems: the order of the checks of `CreateUploadJob` -/

/-- C20: a bound request whose file type `ValidateFileType` rejects and whose
size `ValidateFileSize` rejects gets the file-type error, HTTP 400 with a
message that begins `不支持的文件类型: `, and not the size error: one response is
written and the storage service is not called. -/
theorem createUploadJob_type_before_size (env : Env) (body : JSONBody CreateUploadJobRequest)
    (req : CreateUploadJobRequest)
    (hbind : ShouldBindJSON CreateUploadJobRequest.required body = .ok req)
    (htype : ValidateFileType env.uni req.FileType = false)
    (_hsize : ValidateFileSize req.FileSize (100 * 1024 * 1024) = false) :
    ∃ resp : Response,
      (CreateUploadJob env body).outcome = .json 400 resp ∧
      resp.Code = 400 ∧
      resp.Message = "不支持的文件类型: " ++ req.FileType ∧
      HasPrefix resp.Message "不支持的文件类型: " = true ∧
      resp.Message ≠ "文件大小超出限制" ∧
      (CreateUploadJob env body).storageCalls = [] := by
  have hout : (CreateUploadJob env body).outcome =
      .json 400
        { Code := 400
          Message := "不支持的文件类型: " ++ req.FileType
          Data := none
          Time := (env.clock 0).Format layoutDateTime } := by
    simp [CreateUploadJob, hbind, htype, errorResponse]
  refine ⟨_, hout, rfl, rfl, hasPrefix_append _ _, ?_, ?_⟩
  · intro h
    have hd := congrArg String.data h
    simp only [String.data_append] at hd
    have h0 := congrArg List.head? hd
    simp only [List.cons_append, List.head?_cons, Option.some.injEq] at h0
    revert h0
    decide
  · simp [CreateUploadJob, hbind, htype]

/-- An instance of C20: a 200MB text file. -/
theorem createUploadJob_type_before_size_witness :
    ∃ resp : Response,
      (CreateUploadJob ⟨id, fun n => ⟨1704110400 + n, 0, 0⟩,
          fun _ => ⟨List.replicate 16 171, rfl⟩, fun _ => "invalid request", .nilInterface⟩
          (.decoded ⟨"dev_001", "notes.txt", 209715200, "txt", "text/plain", ""⟩)).outcome
        = .json 400 resp ∧
      resp.Code = 400 ∧
      resp.Message = "不支持的文件类型: " ++ "txt" ∧
      HasPrefix resp.Message "不支持的文件类型: " = true ∧
      resp.Message ≠ "文件大小超出限制" ∧
      (CreateUploadJob ⟨id, fun n => ⟨1704110400 + n, 0, 0⟩,
          fun _ => ⟨List.replicate 16 171, rfl⟩, fun _ => "invalid request", .nilInterface⟩
          (.decoded ⟨"dev_001", "notes.txt", 209715200, "txt", "text/plain", ""⟩)).storageCalls
        = [] :=
  createUploadJob_type_before_size ⟨id, fun n => ⟨1704110400 + n, 0, 0⟩,
    fun _ => ⟨List.replicate 16 171, rfl⟩, fun _ => "invalid request", .nilInterface⟩
    (.decoded ⟨"dev_001", "notes.txt", 209715200, "txt", "text/plain", ""⟩)
    ⟨"dev_001", "notes.txt", 209715200, "txt", "text/plain", ""⟩ rfl rfl rfl

end RPW

namespace RPW

/-! ## Theorems: job IDs -/

theorem hexEncode_cons (b : Fin 256) (bs : List (Fin 256)) :
    hexEncode (b :: bs) = hexDigit (b.val / 16) :: hexDigit b.val :: hexEncode bs := by
  simp [hexEncode]

theorem hexEncode_length (bs : List (Fin 256)) : (hexEncode bs).length = 2 * bs.length := by
  induction bs with
  | nil => rfl
  | cons b bs ih => rw [hexEncode_cons]; simp [ih]; omega

theorem hexDigit_mod (n : Nat) : hexDigit n = hexDigit (n % 16) := by
  simp [hexDigit, Nat.mod_mod]

theorem hexDigit_lower_hex (n : Nat) : hexDigit n ∈ "0123456789abcdef".data := by
  have h : ∀ k : Fin 16, hexDigit k.val ∈ "0123456789abcdef".data := by decide
  rw [hexDigit_mod]
  exact h ⟨n % 16, Nat.mod_lt _ (by decide)⟩

theorem hexEncode_lower_hex (bs : List (Fin 256)) :
    ∀ c ∈ hexEncode bs, c ∈ "0123456789abcdef".data := by
  induction bs with
  | nil => intro c hc; simp [hexEncode] at hc
  | cons b bs ih =>
    intro c hc
    rw [hexEncode_cons] at hc
    rcases List.mem_cons.1 hc with h | h
    · rw [h]; exact hexDigit_lower_hex _
    · rcases List.mem_cons.1 h with h | h
      · rw [h]; exact hexDigit_lower_hex _
      · exact ih c h

theorem hexDigit_injective : ∀ i j : Fin 16, hexDigit i.val = hexDigit j.val → i = j := by
  decide

theorem hexEncode_injective (bs cs : List (Fin 256)) (h : hexEncode bs = hexEncode cs) :
    bs = cs := by
  induction bs generalizing cs with
  | nil =>
    cases cs with
    | nil => rfl
    | cons c cs => rw [hexEncode_cons] at h; simp [hexEncode] at h
  | cons b bs ih =>
    cases cs with
    | nil => rw [hexEncode_cons] at h; simp [hexEncode] at h
    | cons c cs =>
      rw [hexEncode_cons, hexEncode_cons] at h
      simp only [List.cons.injEq] at h
      obtain ⟨h1, h2, h3⟩ := h
      have hb := b.isLt
      have hc := c.isLt
      have e1 := hexDigit_injective ⟨b.val / 16, by omega⟩ ⟨c.val / 16, by omega⟩ h1
      rw [hexDigit_mod b.val, hexDigit_mod c.val] at h2
      have e2 := hexDigit_injective ⟨b.val % 16, Nat.mod_lt _ (by decide)⟩
        ⟨c.val % 16, Nat.mod_lt _ (by decide)⟩ h2
      simp only [Fin.mk.injEq] at e1 e2
      have hbc : b = c := Fin.ext (by omega)
      rw [hbc, ih cs h3]

theorem uuid_first8 (u : UUID) :
    slicePrefix u.String 8 = String.mk (hexEncode (u.bytes.take 4)) := by
  have hlen : (hexEncode (u.bytes.take 4)).length = 8 := by
    rw [hexEncode_length, List.length_take, u.size]
    rfl
  unfold slicePrefix UUID.String
  simp only [List.append_assoc]
  rw [List.take_left' hlen]

theorem generateJobID_eq (u : UUID) :
    GenerateJobID u = String.mk ("job_".data ++ hexEncode (u.bytes.take 4)) := by
  unfold GenerateJobID
  rw [uuid_first8]
  rfl

/-- C15: `GenerateJobID` returns `job_` followed by the first 8 characters of
the canonical form of the drawn UUID: the ID is 12 characters long, begins with
`job_`, and its last 8 characters are lower-case hexadecimal digits. -/
theorem generateJobID_spec (u : UUID) :
    GenerateJobID u = "job_" ++ slicePrefix u.String 8 ∧
    (GenerateJobID u).length = 12 ∧
    HasPrefix (GenerateJobID u) "job_" = true ∧
    ((GenerateJobID u).data.drop 4).length = 8 ∧
    (∀ c ∈ (GenerateJobID u).data.drop 4, c ∈ "0123456789abcdef".data) := by
  have hlen : (hexEncode (u.bytes.take 4)).length = 8 := by
    rw [hexEncode_length, List.length_take, u.size]
    rfl
  have hdrop : (GenerateJobID u).data.drop 4 = hexEncode (u.bytes.take 4) := by
    rw [generateJobID_eq]
    rfl
  refine ⟨rfl, ?_, hasPrefix_append _ _, ?_, ?_⟩
  · rw [generateJobID_eq]
    simp [String.length, hlen]
  · rw [hdrop, hlen]
  · rw [hdrop]
    exact hexEncode_lower_hex _

/-- C16, as the code behaves: job IDs are not unique. The two random UUIDs
`00000000-0000-4000-8000-000000000000` and
`00000000-0000-4000-8000-000000000001`, both of which `uuid.New` can draw, are
different and give the same job ID `job_00000000`, because only the first 8
characters of the UUID enter the ID. -/
theorem generateJobID_collision :
    UUID.isRandom ⟨[0, 0, 0, 0, 0, 0, 64, 0, 128, 0, 0, 0, 0, 0, 0, 0], rfl⟩ = true ∧
    UUID.isRandom ⟨[0, 0, 0, 0, 0, 0, 64, 0, 128, 0, 0, 0, 0, 0, 0, 1], rfl⟩ = true ∧
    UUID.String ⟨[0, 0, 0, 0, 0, 0, 64, 0, 128, 0, 0, 0, 0, 0, 0, 0], rfl⟩
      = "00000000-0000-4000-8000-000000000000" ∧
    UUID.String ⟨[0, 0, 0, 0, 0, 0, 64, 0, 128, 0, 0, 0, 0, 0, 0, 1], rfl⟩
      = "00000000-0000-4000-8000-000000000001" ∧
    (⟨[0, 0, 0, 0, 0, 0, 64, 0, 128, 0, 0, 0, 0, 0, 0, 0], rfl⟩ : UUID)
      ≠ ⟨[0, 0, 0, 0, 0, 0, 64, 0, 128, 0, 0, 0, 0, 0, 0, 1], rfl⟩ ∧
    GenerateJobID ⟨[0, 0, 0, 0, 0, 0, 64, 0, 128, 0, 0, 0, 0, 0, 0, 0], rfl⟩ = "job_00000000" ∧
    GenerateJobID ⟨[0, 0, 0, 0, 0, 0, 64, 0, 128, 0, 0, 0, 0, 0, 0, 1], rfl⟩ = "job_00000000" := by
  refine ⟨by decide, by decide, by decide, by decide, by decide, by decide, by decide⟩

/-- Which draws collide: two UUIDs give the same job ID exactly when they agree
on their first four bytes, so every UUID shares its job ID with all the UUIDs
that differ from it only in the other twelve bytes. -/
theorem generateJobID_eq_iff (u v : UUID) :
    GenerateJobID u = GenerateJobID v ↔ u.bytes.take 4 = v.bytes.take 4 := by
  rw [generateJobID_eq, generateJobID_eq]
  constructor
  · intro h
    have hd := congrArg String.data h
    simp only [List.append_cancel_left_eq] at hd
    exact hexEncode_injective _ _ hd
  · intro h
    rw [h]

end RPW

namespace RPW

/-! ## Theorems: storage keys -/

theorem extScan_suffix (rev acc : List Char) : extScan rev acc <:+ rev.reverse ++ acc := by
  induction rev generalizing acc with
  | nil => exact List.nil_suffix
  | cons c rest ih =>
    unfold extScan
    split
    · exact List.nil_suffix
    · split
      · rename_i hdot
        rw [← hdot]
        simp only [List.reverse_cons, List.append_assoc, List.singleton_append]
        exact List.suffix_append _ _
      · have := ih (c :: acc)
        simpa only [List.reverse_cons, List.append_assoc, List.singleton_append] using this

theorem Ext_suffix (f : String) : (Ext f).data <:+ f.data := by
  have := extScan_suffix f.data.reverse []
  simpa [Ext] using this

theorem trimSuffix_append_ext (f : String) : TrimSuffix f (Ext f) ++ Ext f = f := by
  have hs := Ext_suffix f
  obtain ⟨pre, hpre⟩ := hs
  have hlen : f.data.length - (Ext f).data.length = pre.length := by
    rw [← hpre]
    simp
  have htake : f.data.take (f.data.length - (Ext f).data.length) = pre := by
    rw [hlen]
    conv => lhs; rw [← hpre]
    exact List.take_left' rfl
  apply String.ext
  simp only [TrimSuffix, HasSuffix, Ext_suffix f, decide_True, if_true, String.data_append,
    htake, hpre]

theorem trimSuffix_subset (f e : String) : ∀ c ∈ (TrimSuffix f e).data, c ∈ f.data := by
  intro c hc
  unfold TrimSuffix at hc
  split at hc
  · exact List.mem_of_mem_take hc
  · exact hc

theorem digitChar_digit (d : Nat) : digitChar d ∈ "0123456789".data := by
  have h : ∀ k : Fin 10, Char.ofNat (48 + k.val) ∈ "0123456789".data := by decide
  exact h ⟨d % 10, Nat.mod_lt _ (by decide)⟩

theorem decimalAux_digits (fuel n : Nat) (acc : List Char)
    (hacc : ∀ c ∈ acc, c ∈ "0123456789".data) :
    ∀ c ∈ decimalAux fuel n acc, c ∈ "0123456789".data := by
  induction fuel generalizing n acc with
  | zero => simpa [decimalAux] using hacc
  | succ fuel ih =>
    unfold decimalAux
    split
    · intro c hc
      rcases List.mem_cons.1 hc with h | h
      · rw [h]; exact digitChar_digit n
      · exact hacc c h
    · apply ih
      intro c hc
      rcases List.mem_cons.1 hc with h | h
      · rw [h]; exact digitChar_digit n
      · exact hacc c h

theorem appendInt_no_slash (x : Int) (width : Nat) : ∀ c ∈ appendInt x width, c ≠ '/' := by
  have hd : ∀ c ∈ "0123456789".data, c ≠ '/' := by decide
  intro c hc
  unfold appendInt at hc
  simp only [List.mem_append] at hc
  rcases hc with (h | h) | h
  · split at h
    · simp only [List.mem_singleton] at h
      rw [h]; decide
    · simp at h
  · rw [List.eq_of_mem_replicate h]; decide
  · exact hd c (decimalAux_digits _ _ [] (by simp) c h)

theorem hexEncode_no_slash (bs : List (Fin 256)) : ∀ c ∈ hexEncode bs, c ≠ '/' := by
  have hd : ∀ c ∈ "0123456789abcdef".data, c ≠ '/' := by decide
  intro c hc
  exact hd c (hexEncode_lower_hex bs c hc)

theorem splitRunes_no_sep (sep : Char) (l : List Char) (h : ∀ c ∈ l, c ≠ sep) :
    splitRunes sep l = [l] := by
  induction l with
  | nil => rfl
  | cons c cs ih =>
    have hc : c ≠ sep := h c (by simp)
    simp only [splitRunes, hc, if_false]
    rw [ih (fun x hx => h x (by simp [hx]))]

theorem splitRunes_append_sep (sep : Char) (l rest : List Char) (h : ∀ c ∈ l, c ≠ sep) :
    splitRunes sep (l ++ sep :: rest) = l :: splitRunes sep rest := by
  induction l with
  | nil => simp [splitRunes]
  | cons c cs ih =>
    have hc : c ≠ sep := h c (by simp)
    have ih2 := ih (fun x hx => h x (by simp [hx]))
    simp only [List.cons_append, splitRunes, hc, if_false]
    show (match splitRunes sep (cs ++ sep :: rest) with
      | [] => [[c]]
      | piece :: pieces => (c :: piece) :: pieces) = (c :: cs) :: splitRunes sep rest
    rw [ih2]

theorem uniqueName_no_slash (u : UUID) (f : String) (hf : ∀ c ∈ f.data, c ≠ '/') :
    ∀ c ∈ (TrimSuffix f (Ext f) ++ "_" ++ slicePrefix u.String 8 ++ Ext f).data, c ≠ '/' := by
  intro c hc
  rw [uuid_first8] at hc
  simp only [String.data_append, List.mem_append] at hc
  rcases hc with ((h | h) | h) | h
  · exact hf c (trimSuffix_subset f _ c h)
  · have hu : c = '_' := by simpa using h
    rw [hu]; decide
  · exact hexEncode_no_slash _ c h
  · exact hf c ((Ext_suffix f).subset h)

/-- C13: the storage key is the device ID, a slash, the clock reading laid out
as `2006/01/02/15`, a slash, and the unique name `b_` + the first 8 characters
of the UUID + `e`, where `e` is the extension of the file name and `b` the file
name without it, so that `b + e` is the file name; when neither the device ID
nor the file name holds a slash, splitting the key at the slashes gives exactly
six segments: device ID, year, month, day, hour and the unique file name. -/
theorem generateStorageKey_spec (now : Time) (u : UUID) (d f : String) :
    GenerateStorageKey now u d f =
      d ++ "/" ++ now.Format layoutHourPath ++ "/" ++ TrimSuffix f (Ext f) ++ "_"
        ++ slicePrefix u.String 8 ++ Ext f ∧
    TrimSuffix f (Ext f) ++ Ext f = f ∧
    ((∀ c ∈ d.data, c ≠ '/') → (∀ c ∈ f.data, c ≠ '/') →
      Split (GenerateStorageKey now u d f) '/' =
        [d, String.mk (appendInt now.Year 4), String.mk (appendInt now.Month 2),
         String.mk (appendInt now.Day 2), String.mk (appendInt now.Hour 2),
         TrimSuffix f (Ext f) ++ "_" ++ slicePrefix u.String 8 ++ Ext f] ∧
      (Split (GenerateStorageKey now u d f) '/').length = 6) := by
  refine ⟨?_, trimSuffix_append_ext f, ?_⟩
  · apply String.ext
    simp only [GenerateStorageKey, String.data_append, List.append_assoc]
  · intro hd hf
    have hsplit : Split (GenerateStorageKey now u d f) '/' =
        [d, String.mk (appendInt now.Year 4), String.mk (appendInt now.Month 2),
         String.mk (appendInt now.Day 2), String.mk (appendInt now.Hour 2),
         TrimSuffix f (Ext f) ++ "_" ++ slicePrefix u.String 8 ++ Ext f] := by
      have hs : ("/" : String).data = ['/'] := rfl
      have hkey : (GenerateStorageKey now u d f).data =
          d.data ++ '/' :: (appendInt now.Year 4 ++ '/' :: (appendInt now.Month 2
            ++ '/' :: (appendInt now.Day 2 ++ '/' :: (appendInt now.Hour 2
            ++ '/' :: (TrimSuffix f (Ext f) ++ "_" ++ slicePrefix u.String 8
                ++ Ext f).data)))) := by
        simp only [GenerateStorageKey, Time.Format, layoutHourPath, List.flatMap_cons,
          List.flatMap_nil, formatItem, String.data_append, hs, List.append_assoc,
          List.singleton_append, List.append_nil, List.cons_append, List.nil_append]
      unfold Split
      rw [hkey, splitRunes_append_sep _ _ _ hd,
        splitRunes_append_sep _ _ _ (appendInt_no_slash _ _),
        splitRunes_append_sep _ _ _ (appendInt_no_slash _ _),
        splitRunes_append_sep _ _ _ (appendInt_no_slash _ _),
        splitRunes_append_sep _ _ _ (appendInt_no_slash _ _),
        splitRunes_no_sep _ _ (uniqueName_no_slash u f hf)]
      rfl
    exact ⟨hsplit, by rw [hsplit]; rfl⟩

/-- An instance of C13: the key of `audio_sample.wav` on device `dev_001` at
2024-01-01 12:00 UTC. -/
theorem generateStorageKey_spec_witness :
    Split (GenerateStorageKey ⟨1704110400, 0, 0⟩ ⟨List.replicate 16 171, rfl⟩
        "dev_001" "audio_sample.wav") '/' =
      [("dev_001" : String), String.mk (appendInt (Time.Year ⟨1704110400, 0, 0⟩) 4),
       String.mk (appendInt (Time.Month ⟨1704110400, 0, 0⟩) 2),
       String.mk (appendInt (Time.Day ⟨1704110400, 0, 0⟩) 2),
       String.mk (appendInt (Time.Hour ⟨1704110400, 0, 0⟩) 2),
       TrimSuffix "audio_sample.wav" (Ext "audio_sample.wav") ++ "_"
         ++ slicePrefix (UUID.String ⟨List.replicate 16 171, rfl⟩) 8
         ++ Ext "audio_sample.wav"] ∧
    Split (GenerateStorageKey ⟨1704110400, 0, 0⟩ ⟨List.replicate 16 171, rfl⟩
        "dev_001" "audio_sample.wav") '/' =
      ["dev_001", "2024", "01", "01", "12", "audio_sample_abababab.wav"] :=
  ⟨((generateStorageKey_spec ⟨1704110400, 0, 0⟩ ⟨List.replicate 16 171, rfl⟩
      "dev_001" "audio_sample.wav").2.2 (by decide) (by decide)).1,
   by decide⟩

/-- C14, as the code behaves: the key begins with the device ID, but the file
name is cut at its extension and the UUID prefix is put in between, so the key
of `audio_sample.wav` does not contain `audio_sample.wav`. -/
theorem generateStorageKey_lacks_file_name :
    (∀ (now : Time) (u : UUID) (d f : String),
      HasPrefix (GenerateStorageKey now u d f) d = true ∧
      Contains (GenerateStorageKey now u d f) d = true) ∧
    GenerateStorageKey ⟨1704110400, 0, 0⟩ ⟨List.replicate 16 171, rfl⟩
        "dev_001" "audio_sample.wav"
      = "dev_001/2024/01/01/12/audio_sample_abababab.wav" ∧
    Contains (GenerateStorageKey ⟨1704110400, 0, 0⟩ ⟨List.replicate 16 171, rfl⟩
        "dev_001" "audio_sample.wav") "audio_sample.wav" = false := by
  refine ⟨?_, by decide, by decide⟩
  intro now u d f
  have hp : d.data <+: (GenerateStorageKey now u d f).data := by
    simp only [GenerateStorageKey, String.data_append, List.append_assoc]
    exact List.prefix_append _ _
  exact ⟨by simp [HasPrefix, hp], by simp [Contains, hp.isInfix]⟩

end RPW

namespace RPW

/-! ## Theorems: what `CreateUploadJob` signs and what it returns -/

/-- A run of `CreateUploadJob` that answers 200 went through every check and
got a URL from the storage service. -/
theorem createUploadJob_ok_inv (env : Env) (body : JSONBody CreateUploadJobRequest)
    (hok : (CreateUploadJob env body).outcome.status = some 200) :
    ∃ (req : CreateUploadJobRequest) (uploadURL : String),
      ShouldBindJSON CreateUploadJobRequest.required body = .ok req ∧
      env.storageService.GeneratePresignedUploadURL (createPresignParams env req)
        = some (.ok uploadURL) ∧
      (CreateUploadJob env body).outcome =
        .json 200
          { Code := 200
            Message := "操作成功"
            Data := some (.createUploadJob
              { JobID := createJobID env
                UploadURL := uploadURL
                Bucket := "pest-detection"
                Key := createStorageKey env req
                TTL := 24 * 3600
                ExpiresAt := (env.clock 2).Add (24 * Hour)
                ContentType := req.ContentType
                MaxFileSize := req.FileSize
                RequiredFields := ["file"]
                Status := JobStatusPending
                CreatedAt := env.clock 3 })
            Time := (env.clock 4).Format layoutDateTime } ∧
      (CreateUploadJob env body).storageCalls = [createPresignParams env req] := by
  cases hbind : ShouldBindJSON CreateUploadJobRequest.required body with
  | error err =>
    simp [CreateUploadJob, hbind, errorResponse, Outcome.status] at hok
  | ok req =>
    cases htype : ValidateFileType env.uni req.FileType with
    | false =>
      simp [CreateUploadJob, hbind, htype, errorResponse, Outcome.status] at hok
    | true =>
      cases hsize : ValidateFileSize req.FileSize 104857600 with
      | false =>
        simp [CreateUploadJob, hbind, htype, hsize, errorResponse, Outcome.status] at hok
      | true =>
        cases hcall : env.storageService.GeneratePresignedUploadURL
            (createPresignParams env req) with
        | none =>
          simp [CreateUploadJob, hbind, htype, hsize, hcall, Outcome.status] at hok
        | some result =>
          cases result with
          | error err =>
            simp [CreateUploadJob, hbind, htype, hsize, hcall, errorResponse,
              Outcome.status] at hok
          | ok uploadURL =>
            refine ⟨req, uploadURL, rfl, hcall, ?_, ?_⟩
            · simp [CreateUploadJob, hbind, htype, hsize, hcall, successResponse]
            · simp [CreateUploadJob, hbind, htype, hsize, hcall]

theorem storageKey_begins_with_device (now : Time) (u : UUID) (d f : String) :
    HasPrefix (GenerateStorageKey now u d f) (d ++ "/") = true := by
  have hp : (d ++ "/").data <+: (GenerateStorageKey now u d f).data := by
    simp only [GenerateStorageKey, String.data_append, List.append_assoc]
    exact (List.prefix_append_right_inj _).2 (List.prefix_append _ _)
  unfold HasPrefix
  exact decide_eq_true hp

/-- C21: in every `CreateUploadJob` that answers 200, the key returned is the
`Key` passed to `GeneratePresignedUploadURL`, the job ID returned is the
`job_id` of the metadata passed with it, the `device_id` and `file_type` of the
metadata are those of the request, the key begins with the device ID of the
request followed by a slash, and the `ContentType` passed for signing is the
content type returned. -/
theorem createUploadJob_returns_what_was_signed (env : Env)
    (body : JSONBody CreateUploadJobRequest)
    (hok : (CreateUploadJob env body).outcome.status = some 200) :
    ∃ (req : CreateUploadJobRequest) (resp : Response) (data : CreateUploadJobResponse)
        (params : PresignedURLParams),
      ShouldBindJSON CreateUploadJobRequest.required body = .ok req ∧
      (CreateUploadJob env body).outcome = .json 200 resp ∧
      resp.Data = some (.createUploadJob data) ∧
      (CreateUploadJob env body).storageCalls = [params] ∧
      data.Key = params.Key ∧
      params.Metadata.lookup "job_id" = some data.JobID ∧
      params.Metadata.lookup "device_id" = some req.DeviceID ∧
      params.Metadata.lookup "file_type" = some req.FileType ∧
      HasPrefix data.Key (req.DeviceID ++ "/") = true ∧
      params.ContentType = data.ContentType ∧
      data.ContentType = req.ContentType := by
  obtain ⟨req, uploadURL, hbind, _, hout, hcalls⟩ := createUploadJob_ok_inv env body hok
  exact ⟨req, _, _, _, hbind, hout, rfl, hcalls, rfl, rfl, rfl, rfl,
    storageKey_begins_with_device _ _ _ _, rfl, rfl⟩

/-- An instance of C21: the request of `TestCreateUploadJob` against a storage
service that signs every key. -/
theorem createUploadJob_returns_what_was_signed_witness :
    ∃ (req : CreateUploadJobRequest) (resp : Response) (data : CreateUploadJobResponse)
        (params : PresignedURLParams),
      ShouldBindJSON CreateUploadJobRequest.required
          (.decoded ⟨"dev_001", "test_audio.wav", 1024000, "wav", "audio/wav", "测试音频文件"⟩)
        = .ok req ∧
      (CreateUploadJob ⟨id, fun n => ⟨1704110400 + n, 0, 0⟩,
          fun n => ⟨List.replicate 16 (Fin.ofNat (171 + n)), by simp⟩,
          fun _ => "invalid request",
          .other (fun p => .ok ("http://localhost:9000/" ++ p.Key))⟩
          (.decoded ⟨"dev_001", "test_audio.wav", 1024000, "wav", "audio/wav", "测试音频文件"⟩)).outcome
        = .json 200 resp ∧
      resp.Data = some (.createUploadJob data) ∧
      (CreateUploadJob ⟨id, fun n => ⟨1704110400 + n, 0, 0⟩,
          fun n => ⟨List.replicate 16 (Fin.ofNat (171 + n)), by simp⟩,
          fun _ => "invalid request",
          .other (fun p => .ok ("http://localhost:9000/" ++ p.Key))⟩
          (.decoded ⟨"dev_001", "test_audio.wav", 1024000, "wav", "audio/wav", "测试音频文件"⟩)).storageCalls
        = [params] ∧
      data.Key = params.Key ∧
      params.Metadata.lookup "job_id" = some data.JobID ∧
      params.Metadata.lookup "device_id" = some req.DeviceID ∧
      params.Metadata.lookup "file_type" = some req.FileType ∧
      HasPrefix data.Key (req.DeviceID ++ "/") = true ∧
      params.ContentType = data.ContentType ∧
      data.ContentType = req.ContentType :=
  createUploadJob_returns_what_was_signed
    ⟨id, fun n => ⟨1704110400 + n, 0, 0⟩,
      fun n => ⟨List.replicate 16 (Fin.ofNat (171 + n)), by simp⟩,
      fun _ => "invalid request",
      .other (fun p => .ok ("http://localhost:9000/" ++ p.Key))⟩
    (.decoded ⟨"dev_001", "test_audio.wav", 1024000, "wav", "audio/wav", "测试音频文件"⟩)
    rfl

end RPW

namespace RPW

/-! ## Theorems: the lifetime and the bucket of an upload job -/

/-- With a lifetime that is not zero, `GeneratePresignedUploadURL` hands that
lifetime to the SDK, whatever `ExpireHours` the service is configured with. -/
theorem presign_keeps_expires (s : MinIOStorageService) (params : PresignedURLParams)
    (h : params.Expires ≠ 0) :
    MinIOStorageService.GeneratePresignedUploadURL (some s) params =
      some (match s.presign params.Bucket params.Key params.ContentType params.Metadata
          params.Expires with
        | .error err => .error ("生成预签名URL失败: " ++ err)
        | .ok url => .ok url) := by
  simp only [MinIOStorageService.GeneratePresignedUploadURL, h, if_false]
  cases s.presign params.Bucket params.Key params.ContentType params.Metadata params.Expires
    <;> rfl

/-- C22: in every `CreateUploadJob` that answers 200, the `ttl` returned, 86400
seconds, is the `Expires` passed to `GeneratePresignedUploadURL`, 24 hours, in
seconds, and is the `ExpireHours` of `DefaultObjectStorageConfig` in seconds; the
bucket signed and the bucket returned are the `Bucket` of that configuration,
`pest-detection`; and since `Expires` is not zero, the MinIO service signs with
it and not with its configured default. -/
theorem createUploadJob_lifetime (env : Env) (body : JSONBody CreateUploadJobRequest)
    (hok : (CreateUploadJob env body).outcome.status = some 200) :
    ∃ (resp : Response) (data : CreateUploadJobResponse) (params : PresignedURLParams),
      (CreateUploadJob env body).outcome = .json 200 resp ∧
      resp.Data = some (.createUploadJob data) ∧
      (CreateUploadJob env body).storageCalls = [params] ∧
      data.TTL = 86400 ∧
      params.Expires = 24 * Hour ∧
      params.Expires = data.TTL * Second ∧
      data.TTL = DefaultObjectStorageConfig.ExpireHours * 3600 ∧
      params.Expires = DefaultObjectStorageConfig.ExpireHours * Hour ∧
      params.Bucket = "pest-detection" ∧
      data.Bucket = "pest-detection" ∧
      DefaultObjectStorageConfig.Bucket = "pest-detection" ∧
      params.Expires ≠ 0 ∧
      (∀ s : MinIOStorageService,
        MinIOStorageService.GeneratePresignedUploadURL (some s) params =
          some (match s.presign params.Bucket params.Key params.ContentType params.Metadata
              (24 * Hour) with
            | .error err => .error ("生成预签名URL失败: " ++ err)
            | .ok url => .ok url)) := by
  obtain ⟨req, uploadURL, _, _, hout, hcalls⟩ := createUploadJob_ok_inv env body hok
  have hne : (createPresignParams env req).Expires ≠ 0 := by
    simp [createPresignParams, Hour]
  refine ⟨_, _, _, hout, rfl, hcalls, by norm_num, rfl, ?_, ?_, ?_, rfl, rfl, rfl, hne, ?_⟩
  · simp only [createPresignParams, Hour, Second]; norm_num
  · simp only [DefaultObjectStorageConfig]
  · simp only [createPresignParams, DefaultObjectStorageConfig]
  · intro s
    exact presign_keeps_expires s _ hne

/-- An instance of C22: a MinIO service configured with a lifetime of one hour
is still asked to sign for 24 hours, 86400000000000 nanoseconds. -/
theorem createUploadJob_lifetime_witness :
    ∃ (resp : Response) (data : CreateUploadJobResponse) (params : PresignedURLParams),
      (CreateUploadJob ⟨id, fun n => ⟨1704110400 + n, 0, 0⟩,
          fun _ => ⟨List.replicate 16 171, rfl⟩, fun _ => "invalid request",
          .minio (some ⟨{ DefaultObjectStorageConfig with ExpireHours := 1 },
            fun bucket key _ _ expires =>
              .ok ("http://localhost:9000/" ++ bucket ++ "/" ++ key ++ "?expires="
                ++ FormatInt expires)⟩)⟩
          (.decoded ⟨"dev_001", "test_audio.wav", 1024000, "wav", "audio/wav", "测试音频文件"⟩)).outcome
        = .json 200 resp ∧
      resp.Data = some (.createUploadJob data) ∧
      data.TTL = 86400 ∧
      params.Expires = data.TTL * Second ∧
      data.UploadURL = "http://localhost:9000/pest-detection/dev_001/2024/01/01/12/"
        ++ "test_audio_abababab.wav?expires=86400000000000" := by
  obtain ⟨resp, data, params, hout, hdata, _, httl, _, hexp, _⟩ :=
    createUploadJob_lifetime ⟨id, fun n => ⟨1704110400 + n, 0, 0⟩,
      fun _ => ⟨List.replicate 16 171, rfl⟩, fun _ => "invalid request",
      .minio (some ⟨{ DefaultObjectStorageConfig with ExpireHours := 1 },
        fun bucket key _ _ expires =>
          .ok ("http://localhost:9000/" ++ bucket ++ "/" ++ key ++ "?expires="
            ++ FormatInt expires)⟩)⟩
      (.decoded ⟨"dev_001", "test_audio.wav", 1024000, "wav", "audio/wav", "测试音频文件"⟩)
      rfl
  refine ⟨resp, data, params, hout, hdata, httl, hexp, ?_⟩
  have hconcrete :
      (CreateUploadJob ⟨id, fun n => ⟨1704110400 + n, 0, 0⟩,
          fun _ => ⟨List.replicate 16 171, rfl⟩, fun _ => "invalid request",
          .minio (some ⟨{ DefaultObjectStorageConfig with ExpireHours := 1 },
            fun bucket key _ _ expires =>
              .ok ("http://localhost:9000/" ++ bucket ++ "/" ++ key ++ "?expires="
                ++ FormatInt expires)⟩)⟩
          (.decoded ⟨"dev_001", "test_audio.wav", 1024000, "wav", "audio/wav", "测试音频文件"⟩)).outcome.body.bind
        (fun r => r.Data) =
      some (.createUploadJob
        { JobID := "job_abababab"
          UploadURL := "http://localhost:9000/pest-detection/dev_001/2024/01/01/12/"
            ++ "test_audio_abababab.wav?expires=86400000000000"
          Bucket := "pest-detection"
          Key := "dev_001/2024/01/01/12/test_audio_abababab.wav"
          TTL := 86400
          ExpiresAt := ⟨1704196802, 0, 0⟩
          ContentType := "audio/wav"
          MaxFileSize := 1024000
          RequiredFields := ["file"]
          Status := "pending"
          CreatedAt := ⟨1704110403, 0, 0⟩ }) := by
    rfl
  rw [hout] at hconcrete
  simp only [Outcome.body, Option.bind, hdata, Option.some.injEq,
    Payload.createUploadJob.injEq] at hconcrete
  rw [hconcrete]

end RPW

namespace RPW

/-! ## Theorems: content types, file types and storage keys -/

theorem extScan_shape (rev acc : List Char) :
    extScan rev acc = [] ∨ ∃ t, extScan rev acc = '.' :: t := by
  induction rev generalizing acc with
  | nil => exact Or.inl rfl
  | cons c rest ih =>
    unfold extScan
    split
    · exact Or.inl rfl
    · split
      · exact Or.inr ⟨acc, rfl⟩
      · exact ih (c :: acc)

theorem Ext_shape (name : String) :
    Ext name = "" ∨ ∃ t : List Char, Ext name = String.mk ('.' :: t) := by
  rcases extScan_shape name.data.reverse [] with h | ⟨t, h⟩
  · left
    unfold Ext
    rw [h]
  · right
    exact ⟨t, by unfold Ext; rw [h]⟩

theorem dotted_mem (l : List Char) :
    String.mk ('.' :: l) ∈ [".wav", ".mp3", ".flac", ".m4a", ".aac"] ↔
      String.mk l ∈ ["wav", "mp3", "flac", "m4a", "aac"] := by
  have h : ∀ s : String, String.mk ('.' :: l) = String.mk ('.' :: s.data) ↔ String.mk l = s := by
    intro s
    constructor
    · intro h
      have hd := congrArg String.data h
      simp only [List.cons.injEq, true_and] at hd
      exact String.ext hd
    · intro h
      rw [← h]
  have h1 := h "wav"
  have h2 := h "mp3"
  have h3 := h "flac"
  have h4 := h "m4a"
  have h5 := h "aac"
  show String.mk ('.' :: l) ∈ [String.mk ('.' :: "wav".data), String.mk ('.' :: "mp3".data),
      String.mk ('.' :: "flac".data), String.mk ('.' :: "m4a".data),
      String.mk ('.' :: "aac".data)] ↔ _
  simp only [List.mem_cons, List.mem_singleton, List.not_mem_nil, or_false, h1, h2, h3, h4, h5]

theorem getContentType_ne_default_iff (uni : Char → Char) (name : String) :
    GetContentType uni name ≠ "application/octet-stream" ↔
      ToLower uni (Ext name) ∈ [".wav", ".mp3", ".flac", ".m4a", ".aac"] := by
  constructor
  · intro h
    by_contra hmem
    exact h (getContentType_default uni name hmem)
  · intro h
    simp only [List.mem_cons, List.mem_singleton, List.not_mem_nil, or_false] at h
    rcases h with h | h | h | h | h <;> simp only [GetContentType, h] <;> decide

/-- C23: `GetContentType` and `ValidateFileType` know the same audio formats:
the content type of a name is not `application/octet-stream` exactly when the
name has an extension and `ValidateFileType` accepts that extension without its
leading dot. -/
theorem getContentType_agrees_with_validateFileType (uni : Char → Char) (name : String) :
    GetContentType uni name ≠ "application/octet-stream" ↔
      (Ext name ≠ "" ∧ ValidateFileType uni (TrimPrefix (Ext name) ".") = true) := by
  rw [getContentType_ne_default_iff]
  unfold ValidateFileType
  rw [validateFileTypeLoop_iff]
  rcases Ext_shape name with h | ⟨t, h⟩
  · rw [h]
    have hempty : ToLower uni "" = "" := rfl
    rw [hempty]
    constructor
    · intro hmem
      exact absurd hmem (by decide)
    · intro hne
      exact absurd rfl hne.1
  · rw [h]
    have hlower : ToLower uni (String.mk ('.' :: t))
        = String.mk ('.' :: t.map (toLowerRune uni)) := rfl
    have htrim : TrimPrefix (String.mk ('.' :: t)) "." = String.mk t := by
      have hp : (".".data <+: '.' :: t) := ⟨t, rfl⟩
      simp only [TrimPrefix, HasPrefix, hp, decide_True, if_true]
      rfl
    have hlower2 : ToLower uni (String.mk t) = String.mk (t.map (toLowerRune uni)) := rfl
    have hne : String.mk ('.' :: t) ≠ "" := by
      intro hc
      have hd := congrArg String.data hc
      simp at hd
    rw [hlower, htrim, hlower2, dotted_mem]
    constructor
    · intro hmem
      exact ⟨hne, hmem⟩
    · intro hmem
      exact hmem.2

end RPW

namespace RPW

/-! ## Theorems: the content type of a storage key -/

theorem scan_decompose (l : List Char) :
    ∃ s rest, l = s ++ rest ∧ (∀ c ∈ s, c ≠ '.' ∧ c ≠ '/') ∧
      (rest = [] ∨ (∃ tail, rest = '/' :: tail) ∨ (∃ tail, rest = '.' :: tail)) := by
  induction l with
  | nil => exact ⟨[], [], rfl, by simp, Or.inl rfl⟩
  | cons c cs ih =>
    by_cases h1 : c = '/'
    · exact ⟨[], c :: cs, rfl, by simp, Or.inr (Or.inl ⟨cs, by rw [h1]⟩)⟩
    · by_cases h2 : c = '.'
      · exact ⟨[], c :: cs, rfl, by simp, Or.inr (Or.inr ⟨cs, by rw [h2]⟩)⟩
      · obtain ⟨s, rest, hl, hs, hrest⟩ := ih
        refine ⟨c :: s, rest, by rw [hl]; rfl, ?_, hrest⟩
        intro x hx
        rcases List.mem_cons.1 hx with h | h
        · rw [h]; exact ⟨h2, h1⟩
        · exact hs x h

theorem hexEncode_clean (bs : List (Fin 256)) :
    ∀ c ∈ hexEncode bs, c ≠ '.' ∧ c ≠ '/' := by
  have hd : ∀ c ∈ "0123456789abcdef".data, c ≠ '.' ∧ c ≠ '/' := by decide
  intro c hc
  exact hd c (hexEncode_lower_hex bs c hc)

theorem generateStorageKey_data (now : Time) (u : UUID) (d f : String) :
    (GenerateStorageKey now u d f).data =
      d.data ++ '/' :: ((now.Format layoutHourPath).data ++ '/' ::
        ((TrimSuffix f (Ext f)).data ++ '_' :: (hexEncode (u.bytes.take 4)
          ++ (Ext f).data))) := by
  have hs : ("/" : String).data = ['/'] := rfl
  have hu : ("_" : String).data = ['_'] := rfl
  simp only [GenerateStorageKey, uuid_first8, String.data_append, hs, hu, List.append_assoc,
    List.singleton_append, List.cons_append, List.nil_append]

theorem Ext_generateStorageKey (now : Time) (u : UUID) (d f : String) :
    Ext (GenerateStorageKey now u d f) = Ext f := by
  obtain ⟨s, rest, hrev, hs, hrest⟩ := scan_decompose f.data.reverse
  have hclean : ∀ c ∈ s.reverse, c ≠ '.' ∧ c ≠ '/' := fun c hc => hs c (List.mem_reverse.1 hc)
  have hrev2 : f.data.reverse = s.reverse.reverse ++ rest := by rw [List.reverse_reverse]; exact hrev
  rcases hrest with hnil | ⟨tail, hslash⟩ | ⟨tail, hdot⟩
  · -- the file name has neither a dot nor a slash
    have hext : (Ext f).data = [] := by
      unfold Ext
      rw [hrev2]
      exact extScan_no_dot s.reverse rest [] hclean (Or.inl hnil)
    have hf : f.data = s.reverse := by
      have := congrArg List.reverse hrev
      rw [hnil] at this
      simpa using this
    have hbase : (TrimSuffix f (Ext f)).data = s.reverse := by
      have := congrArg String.data (trimSuffix_append_ext f)
      rw [String.data_append, hext, List.append_nil] at this
      rw [this, hf]
    apply String.ext
    rw [hext]
    show extScan (GenerateStorageKey now u d f).data.reverse [] = _
    rw [generateStorageKey_data, hbase, hext]
    have hshape : (d.data ++ '/' :: ((now.Format layoutHourPath).data ++ '/' ::
        (s.reverse ++ '_' :: (hexEncode (u.bytes.take 4) ++ [])))).reverse =
        (s.reverse ++ '_' :: hexEncode (u.bytes.take 4)).reverse ++
          '/' :: (d.data ++ '/' :: (now.Format layoutHourPath).data).reverse := by
      simp
    rw [hshape]
    apply extScan_no_dot _ _ _ _ (Or.inr ⟨_, rfl⟩)
    intro c hc
    rcases List.mem_append.1 hc with h | h
    · exact hclean c h
    · rcases List.mem_cons.1 h with h | h
      · rw [h]; decide
      · exact hexEncode_clean _ c h
  · -- the last path element of the file name has no dot
    have hext : (Ext f).data = [] := by
      unfold Ext
      rw [hrev2]
      exact extScan_no_dot s.reverse rest [] hclean (Or.inr ⟨tail, hslash⟩)
    have hf : f.data = tail.reverse ++ '/' :: s.reverse := by
      have := congrArg List.reverse hrev
      rw [hslash] at this
      simpa using this
    have hbase : (TrimSuffix f (Ext f)).data = tail.reverse ++ '/' :: s.reverse := by
      have := congrArg String.data (trimSuffix_append_ext f)
      rw [String.data_append, hext, List.append_nil] at this
      rw [this, hf]
    apply String.ext
    rw [hext]
    show extScan (GenerateStorageKey now u d f).data.reverse [] = _
    rw [generateStorageKey_data, hbase, hext]
    have hshape : (d.data ++ '/' :: ((now.Format layoutHourPath).data ++ '/' ::
        ((tail.reverse ++ '/' :: s.reverse) ++ '_' :: (hexEncode (u.bytes.take 4)
          ++ [])))).reverse =
        (s.reverse ++ '_' :: hexEncode (u.bytes.take 4)).reverse ++
          '/' :: (d.data ++ '/' :: ((now.Format layoutHourPath).data ++ '/' ::
            tail.reverse)).reverse := by
      simp
    rw [hshape]
    apply extScan_no_dot _ _ _ _ (Or.inr ⟨_, rfl⟩)
    intro c hc
    rcases List.mem_append.1 hc with h | h
    · exact hclean c h
    · rcases List.mem_cons.1 h with h | h
      · rw [h]; decide
      · exact hexEncode_clean _ c h
  · -- the file name has an extension
    have hext : (Ext f).data = '.' :: s.reverse := by
      unfold Ext
      rw [hrev2, hdot]
      have := extScan_append_dot s.reverse tail [] hclean
      simpa using this
    apply String.ext
    rw [hext]
    show extScan (GenerateStorageKey now u d f).data.reverse [] = _
    rw [generateStorageKey_data, hext]
    generalize (TrimSuffix f (Ext f)).data = base
    have hshape : (d.data ++ '/' :: ((now.Format layoutHourPath).data ++ '/' ::
        (base ++ '_' :: (hexEncode (u.bytes.take 4) ++ '.' :: s.reverse)))).reverse =
        s.reverse.reverse ++ '.' :: (d.data ++ '/' :: ((now.Format layoutHourPath).data
          ++ '/' :: (base ++ '_' :: hexEncode (u.bytes.take 4)))).reverse := by
      simp
    rw [hshape]
    have := extScan_append_dot s.reverse
      (d.data ++ '/' :: ((now.Format layoutHourPath).data
          ++ '/' :: (base ++ '_' :: hexEncode (u.bytes.take 4)))).reverse [] hclean
    simpa using this

theorem hasSuffix_append (a b : String) : HasSuffix (a ++ b) b = true := by
  unfold HasSuffix
  rw [String.data_append]
  exact decide_eq_true (List.suffix_append _ _)

/-- C24: generating a storage key preserves the content type of the file: for
every device ID, file name, clock reading and UUID the key ends with the
extension of the file name, has that extension as its own, and so has the
content type of the file name. -/
theorem getContentType_generateStorageKey (uni : Char → Char) (now : Time) (u : UUID)
    (d f : String) :
    GetContentType uni (GenerateStorageKey now u d f) = GetContentType uni f ∧
    Ext (GenerateStorageKey now u d f) = Ext f ∧
    HasSuffix (GenerateStorageKey now u d f) (Ext f) = true := by
  refine ⟨?_, Ext_generateStorageKey now u d f, ?_⟩
  · simp only [GetContentType, Ext_generateStorageKey]
  · have hkey : GenerateStorageKey now u d f =
        (d ++ "/" ++ now.Format layoutHourPath ++ "/" ++ TrimSuffix f (Ext f) ++ "_"
          ++ slicePrefix u.String 8) ++ Ext f := by
      apply String.ext
      simp only [GenerateStorageKey, String.data_append, List.append_assoc]
    rw [hkey]
    exact hasSuffix_append _ _

end RPW

namespace RPW

/-! ## Theorems: the brokers string -/

theorem string_empty_append (s : String) : "" ++ s = s := by
  apply String.ext
  rw [String.data_append]
  rfl

theorem brokersLoop_join (i : Nat) (hi : 0 < i) (rest : List String) (acc broker : String) :
    brokersLoop i rest (acc ++ broker) = acc ++ joinWithCommas (broker :: rest) := by
  induction rest generalizing i acc broker with
  | nil => rfl
  | cons next rest ih =>
    have hstep : brokersLoop i (next :: rest) (acc ++ broker)
        = brokersLoop (i + 1) rest ((acc ++ broker ++ ",") ++ next) := by
      simp [brokersLoop, hi]
    rw [hstep, ih (i + 1) (by omega)]
    apply String.ext
    simp only [joinWithCommas, String.data_append, List.append_assoc]

theorem getBrokersString_join (c : KafkaConfig) :
    c.GetBrokersString = joinWithCommas c.Brokers := by
  unfold KafkaConfig.GetBrokersString
  cases c.Brokers with
  | nil => rfl
  | cons broker rest =>
    have hstep : brokersLoop 0 (broker :: rest) "" = brokersLoop 1 rest ("" ++ broker) := by
      simp [brokersLoop]
    rw [hstep, brokersLoop_join 1 (by decide), string_empty_append]

theorem joinWithCommas_begins (broker : String) (rest : List String) :
    broker.data <+: (joinWithCommas (broker :: rest)).data := by
  cases rest with
  | nil => exact List.prefix_refl _
  | cons next rest =>
    simp only [joinWithCommas, String.data_append, List.append_assoc]
    exact List.prefix_append _ _

theorem joinWithCommas_ends (l : List String) (last : String) (h : l.getLast? = some last) :
    last.data <:+ (joinWithCommas l).data := by
  induction l with
  | nil => simp at h
  | cons broker rest ih =>
    cases rest with
    | nil =>
      simp only [List.getLast?_singleton, Option.some.injEq] at h
      rw [← h]
      exact List.suffix_refl _
    | cons next rest =>
      have h2 : (next :: rest).getLast? = some last := by
        rw [List.getLast?_cons_cons] at h
        exact h
      have := ih h2
      simp only [joinWithCommas, String.data_append, List.append_assoc]
      exact (this.trans (List.suffix_append _ _)).trans (List.suffix_append _ _)

theorem splitRunes_ne_nil (sep : Char) (l : List Char) : splitRunes sep l ≠ [] := by
  cases l with
  | nil => simp [splitRunes]
  | cons c cs =>
    unfold splitRunes
    split
    · simp
    · split <;> simp

theorem join_splitRunes (l : List Char) :
    (joinWithCommas ((splitRunes ',' l).map String.mk)).data = l := by
  induction l with
  | nil => rfl
  | cons c cs ih =>
    cases hsplit : splitRunes ',' cs with
    | nil => exact absurd hsplit (splitRunes_ne_nil ',' cs)
    | cons piece pieces =>
      rw [hsplit] at ih
      by_cases hc : c = ','
      · have hstep : splitRunes ',' (c :: cs) = [] :: piece :: pieces := by
          simp [splitRunes, hc, hsplit]
        rw [hstep]
        simp only [List.map_cons, joinWithCommas, String.data_append] at ih ⊢
        rw [ih, hc]
        rfl
      · have hstep : splitRunes ',' (c :: cs) = (c :: piece) :: pieces := by
          simp [splitRunes, hc, hsplit]
        rw [hstep]
        cases pieces with
        | nil =>
          simp only [List.map_cons, List.map_nil, joinWithCommas] at ih ⊢
          rw [ih]
        | cons p2 ps =>
          simp only [List.map_cons, joinWithCommas, String.data_append, List.append_assoc]
            at ih ⊢
          rw [← ih]
          rfl

/-- C25: `GetBrokersString` returns the brokers joined by commas in order, the
empty string for no broker, beginning with the first broker and ending with the
last, so that no comma is put in front or behind; hence for a non-empty value
`v` of the brokers variable, `GetBrokersString` of the list that
`getStringSliceEnv` builds from `v` is `v`, and joining the pieces of `v` split
at its commas gives `v` as well. -/
theorem getBrokersString_spec :
    (∀ c : KafkaConfig, c.GetBrokersString = joinWithCommas c.Brokers) ∧
    (∀ topic groupID : String, (KafkaConfig.mk [] topic groupID).GetBrokersString = "") ∧
    (∀ (c : KafkaConfig) (first : String), c.Brokers.head? = some first →
      HasPrefix c.GetBrokersString first = true) ∧
    (∀ (c : KafkaConfig) (last : String), c.Brokers.getLast? = some last →
      HasSuffix c.GetBrokersString last = true) ∧
    (∀ (getenv : String → String) (key : String) (defaultValue : List String)
        (topic groupID : String), getenv key ≠ "" →
      (KafkaConfig.mk (getStringSliceEnv getenv key defaultValue) topic
        groupID).GetBrokersString = getenv key) ∧
    (∀ (v topic groupID : String),
      (KafkaConfig.mk (Split v ',') topic groupID).GetBrokersString = v) := by
  refine ⟨getBrokersString_join, fun _ _ => rfl, ?_, ?_, ?_, ?_⟩
  · intro c first h
    rw [getBrokersString_join]
    cases hb : c.Brokers with
    | nil => rw [hb] at h; simp at h
    | cons broker rest =>
      rw [hb] at h
      simp only [List.head?_cons, Option.some.injEq] at h
      rw [← h]
      unfold HasPrefix
      exact decide_eq_true (joinWithCommas_begins broker rest)
  · intro c last h
    rw [getBrokersString_join]
    unfold HasSuffix
    exact decide_eq_true (joinWithCommas_ends c.Brokers last h)
  · intro getenv key defaultValue topic groupID h
    rw [getBrokersString_join]
    simp [getStringSliceEnv, h, joinWithCommas]
  · intro v topic groupID
    rw [getBrokersString_join]
    apply String.ext
    exact join_splitRunes v.data

/-- Instances of C25: two brokers are joined by one comma, and the value
`a:9092,b:9092` of `KAFKA_BROKERS` comes back as it is. -/
theorem getBrokersString_spec_witness :
    (KafkaConfig.mk ["a:9092", "b:9092"] "audio_detection" "detection_group").GetBrokersString
      = "a:9092,b:9092" ∧
    HasPrefix (KafkaConfig.mk ["a:9092", "b:9092"] "audio_detection"
      "detection_group").GetBrokersString "a:9092" = true ∧
    (KafkaConfig.mk
      (getStringSliceEnv (fun key => if key = "KAFKA_BROKERS" then "a:9092,b:9092" else "")
        "KAFKA_BROKERS" ["localhost:9092"])
      "audio_detection" "detection_group").GetBrokersString = "a:9092,b:9092" :=
  ⟨by decide,
   getBrokersString_spec.2.2.1 ⟨["a:9092", "b:9092"], "audio_detection", "detection_group"⟩
     "a:9092" rfl,
   getBrokersString_spec.2.2.2.2.1
     (fun key => if key = "KAFKA_BROKERS" then "a:9092,b:9092" else "")
     "KAFKA_BROKERS" ["localhost:9092"] "audio_detection" "detection_group" (by decide)⟩

end RPW
